import Mathlib

/-!
# buffalo-plugin-template

A shallow embedding of `buffalo-plugin-template.go`: the identifier transformer
(`determineHandlerName`), the argument cursor (`ArgumentIterator`), the sink
selection (`setOutput`), the generation and destruction handlers and the
dispatcher (`main`), followed by the properties established about them.

Modelling conventions.

* A Go string is represented by the sequence of runes a `range` loop reads from
  it, held in a Lean `String`.  The program compares strings only with ASCII
  constants and slices only after an ASCII prefix, so byte offsets and rune
  offsets coincide wherever the program uses them.
* `log.Fatal` and `panic` end the process; they are returned as a `Fatal` value
  together with the state at the point of failure.
* The file system and the standard streams are external: calls to them are
  recorded as `Event`s, and their outcomes are read from an `Env` whose answers
  may depend on everything that happened before.
* `ArgumentIterator` is a Go `int` that is created as `1` and only incremented;
  it is a natural number here.
-/

namespace BuffaloPluginTemplate

/-! ## Library functions of Go used by the program -/

/-- The character tables of Go's `unicode` package outside ASCII: membership in
the `Letter`, `Number` and `Digit` range tables and the upper-case mapping.
`Digit` (the decimal digits, category Nd) is a part of `Number` (which also
holds the categories Nl and No, such as `½` and `²`).  The program consults
`Letter`, `Number` and the upper-case mapping; `Digit` is what the specification
means by a digit.  The tables are not part of the program and are taken as a
parameter; every theorem stated for a table `T` holds for all tables. -/
structure UnicodeTables where
  letter : Char → Bool
  number : Char → Bool
  digit : Char → Bool
  upper : Char → Char
  digit_number : ∀ c, digit c = true → number c = true

/-- Sample tables that classify no character outside ASCII as a letter or a
number and map each such character to itself. -/
def asciiOnlyTables : UnicodeTables :=
  { letter := fun _ => false
    number := fun _ => false
    digit := fun _ => false
    upper := fun r => r
    digit_number := fun _ h => h }

/-- Sample tables with the entries of Go's tables for six characters of
Latin-1: `²`, `³`, `¹`, `¼`, `½` and `¾` are numbers (category No), are not
digits and not letters, and have no upper-case mapping.  No other character
outside ASCII is classified; the tables serve to evaluate the program on inputs
whose characters outside ASCII are among these six. -/
def fractionTables : UnicodeTables :=
  { letter := fun _ => false
    number := fun c => c == '²' || c == '³' || c == '¹' || c == '¼' || c == '½' || c == '¾'
    digit := fun _ => false
    upper := fun r => r
    digit_number := fun _ h => absurd h Bool.false_ne_true }

namespace unicode

/-- Go `unicode.IsLetter`: on ASCII exactly `A`-`Z` and `a`-`z`, elsewhere the
`Letter` table. -/
def IsLetter (T : UnicodeTables) (r : Char) : Bool :=
  if r.val < 128 then r.isAlpha else T.letter r

/-- Go `unicode.IsNumber`: on ASCII exactly `0`-`9`, elsewhere the `Number`
table. -/
def IsNumber (T : UnicodeTables) (r : Char) : Bool :=
  if r.val < 128 then r.isDigit else T.number r

/-- Go `unicode.IsDigit`: on ASCII exactly `0`-`9`, elsewhere the `Digit`
table.  The program does not call it. -/
def IsDigit (T : UnicodeTables) (r : Char) : Bool :=
  if r.val < 128 then r.isDigit else T.digit r

/-- Go `unicode.ToUpper`: on ASCII `a`-`z` go to `A`-`Z` and everything else is
kept, elsewhere the upper-case mapping of the tables. -/
def ToUpper (T : UnicodeTables) (r : Char) : Char :=
  if r.val < 128 then r.toUpper else T.upper r

end unicode

namespace strings

/-- Go `strings.HasPrefix`. -/
def HasPrefix (s pre : String) : Bool :=
  pre.data.isPrefixOf s.data

end strings

namespace filepath

/-- Go `filepath.Base` on a Unix build (separator `/`, no volume names): the
last element of the path, after trailing separators are removed; `.` for the
empty path and `/` for a path of separators only. -/
def Base (path : String) : String :=
  if path.data = [] then "."
  else
    let stripped := (path.data.reverse.dropWhile (fun c => c == '/')).reverse
    let last := (stripped.reverse.takeWhile (fun c => c != '/')).reverse
    if last = [] then "/" else String.mk last

end filepath

/-! ## Terminal errors -/

/-- The ways the process is ended by `log.Fatal` (the first five) or by `panic`
(the last three). -/
inductive Fatal where
  /-- `getArgument`, line 51: the description, the position and `os.Args`. -/
  | missingArgument (argumentDescription : String) (position : Nat) (args : List String)
  /-- `setOutput`, line 107. -/
  | invalidOutputValue (outputValue : String)
  /-- `determineHandlerName`, line 140. -/
  | invalidPluginName (pluginName : String)
  /-- `determineHandlerName`, line 159. -/
  | emptyDerivedIdentifier (pluginName : String)
  /-- `destroyPluginTemplate`, lines 126, 131 and 134. -/
  | destroyFailure (absolutePluginDir : String)
  /-- `determineAbsolutePluginPath`, line 115. -/
  | absFailure (pluginNameWithPath : String)
  /-- `generatePluginTemplate`, lines 190 and 199. -/
  | generationFailure (target : String)
  /-- `generatePluginTemplate`, line 194. -/
  | unexpectedGenerationOutput (generationOutput : String)
  deriving DecidableEq, Repr

deriving instance DecidableEq for Except

/-! ## Identifier transformer -/

/-- The test of line 146. -/
def isLetterOrNumber (T : UnicodeTables) (characterEntry : Char) : Bool :=
  unicode.IsLetter T characterEntry || unicode.IsNumber T characterEntry

/-- The body of the `range` loop of `determineHandlerName` (lines 146-155),
acting on the pair `(pluginNameCamelCase, nextCamelCase)`. -/
def camelCaseStep (T : UnicodeTables) (st : String × Bool) (characterEntry : Char) :
    String × Bool :=
  if unicode.IsLetter T characterEntry || unicode.IsNumber T characterEntry then
    if st.2 then
      (st.1 ++ String.singleton (unicode.ToUpper T characterEntry), false)
    else
      (st.1 ++ String.singleton characterEntry, st.2)
  else
    (st.1, true)

/-- Go `determineHandlerName` (lines 138-163). -/
def determineHandlerName (T : UnicodeTables) (pluginName : String) : Except Fatal String :=
  if !strings.HasPrefix pluginName "buffalo-" then
    .error (Fatal.invalidPluginName pluginName)
  else
    let pluginNameWithoutBuffaloPrefix := pluginName.data.drop "buffalo-".length
    let pluginNameCamelCase :=
      (pluginNameWithoutBuffaloPrefix.foldl (camelCaseStep T) ("", true)).1
    if pluginNameCamelCase.length == 0 then
      .error (Fatal.emptyDerivedIdentifier pluginName)
    else
      .ok ("handle" ++ pluginNameCamelCase)

/-- The characters the loop of `determineHandlerName` appends when it starts
with `nextCamelCase = b`. -/
def camelTail (T : UnicodeTables) : Bool → List Char → List Char
  | _, [] => []
  | b, c :: cs =>
    if isLetterOrNumber T c then
      (if b then unicode.ToUpper T c else c) :: camelTail T false cs
    else camelTail T true cs

/-! ### The transformer as the specification words it -/

/-- A letter or a digit, as the specification has it. -/
def isLetterOrDigit (T : UnicodeTables) (c : Char) : Bool :=
  unicode.IsLetter T c || unicode.IsDigit T c

/-- The maximal runs of letters and digits of a character sequence: the pieces
between the characters that are neither, empty pieces left out. -/
def alnumRuns (T : UnicodeTables) (cs : List Char) : List (List Char) :=
  (cs.splitOnP (fun c => !isLetterOrDigit T c)).filter (fun run => !run.isEmpty)

/-- A run with its first character upper-cased and the others unchanged. -/
def capitalizeRun (T : UnicodeTables) : List Char → List Char
  | [] => []
  | c :: cs => unicode.ToUpper T c :: cs

/-- The identifier the specification describes for the suffix `s`: `handle`,
then every run of letters and digits capitalised, in order. -/
def specHandlerName (T : UnicodeTables) (s : String) : String :=
  "handle" ++ String.mk ((alnumRuns T s.data).map (capitalizeRun T)).flatten

/-! ## State of a run -/

/-- Go `TemplateParams` (lines 272-276). -/
structure TemplateParams where
  BuffaloCommand : String
  PluginName : String
  BuffaloCommandHandlerName : String
  deriving DecidableEq, Repr

/-- The fields of `plugins.Command` the program fills in. -/
structure Command where
  Name : String
  UseCommand : String
  BuffaloCommand : String
  Description : String
  deriving DecidableEq, Repr

/-- The command catalog built in `main` (lines 229-242). -/
def buffaloCommands : List Command :=
  [ { Name := "plugin-template"
      UseCommand := "plugin-template-generate"
      BuffaloCommand := "generate"
      Description :=
        "[--output (gohome|stdout)] <buffalo_command> <plugin_name> Generates a new plugin." },
    { Name := "plugin-template"
      UseCommand := "plugin-template-destroy"
      BuffaloCommand := "destroy"
      Description :=
        "<plugin_name> Destroys plugin previously generated by \"buffalo generate plugin-template\" command" } ]

/-- What a run does to the outside world, in order.  `callGenerate` and
`callDestroy` mark the entry into `generatePluginTemplate` and
`destroyPluginTemplate`; the others are calls into the Go library. -/
inductive Event where
  /-- `printHelp()`. -/
  | printHelp
  /-- Line 253: the catalog printed as JSON. -/
  | printCatalog (commands : List Command)
  /-- Lines 262-264: the unrecognized token and `os.Args`. -/
  | printUnrecognized (flagOrBuffaloCommand : String) (args : List String)
  /-- `log.Println`. -/
  | log (message : String)
  /-- Entry into `generatePluginTemplate`. -/
  | callGenerate (buffaloCommand : String) (pluginNameWithPath : String)
  /-- `os.MkdirAll`, line 187. -/
  | mkdirAll (absolutePluginDir : String)
  /-- `os.Create`, line 188. -/
  | create (generationFilePath : String)
  /-- `tmpl.Execute`, line 197, on the selected sink. -/
  | execute (generationOutput : String) (templateParams : TemplateParams)
  /-- Entry into `destroyPluginTemplate`. -/
  | callDestroy (pluginNameWithPath : String)
  /-- `os.RemoveAll`, line 129. -/
  | removeAll (absolutePluginDir : String)
  deriving DecidableEq, Repr

/-- The outside world: the value of `getGoHome()` and the outcome of each call
that can fail, given everything that happened before it. -/
structure Env where
  gohome : String
  /-- `filepath.Abs`; `none` is its error. -/
  abs : List Event → String → Option String
  /-- `os.Stat`; `none` is its error, otherwise `IsDir()`. -/
  statIsDir : List Event → String → Option Bool
  /-- `os.RemoveAll` succeeds. -/
  removeAllOk : List Event → String → Bool
  /-- `os.Create` succeeds. -/
  createOk : List Event → String → Bool
  /-- `tmpl.Execute` succeeds. -/
  executeOk : List Event → String → TemplateParams → Bool

/-- A sample world in which every call succeeds and every path is a
directory. -/
def quietEnv : Env :=
  { gohome := "/go"
    abs := fun _ path => some path
    statIsDir := fun _ _ => some true
    removeAllOk := fun _ _ => true
    createOk := fun _ _ => true
    executeOk := fun _ _ _ => true }

/-- The mutable state of a run: `os.Args`, the cursor of `main`, the global
`generationOutput`, the events so far, and (a record kept for the proofs only)
every value the cursor has held. -/
structure State where
  args : List String
  argumentIterator : Nat
  generationOutput : String
  trace : List Event
  cursorLog : List Nat
  deriving DecidableEq, Repr

/-- Append an event to the trace. -/
def State.emit (s : State) (e : Event) : State :=
  { s with trace := s.trace ++ [e] }

/-- The result of a step of the run: a value and the new state, a terminal
error with the state in which it occurred, or exhaustion of the iteration
bound of a loop of the model. -/
inductive Res (α : Type) where
  | ok (value : α) (s : State)
  | fatal (e : Fatal) (s : State)
  | outOfFuel (s : State)
  deriving DecidableEq, Repr

/-- Sequencing: continue with the value and state of a successful step. -/
def Res.bind {α β : Type} (r : Res α) (f : α → State → Res β) : Res β :=
  match r with
  | .ok a s => f a s
  | .fatal e s => .fatal e s
  | .outOfFuel s => .outOfFuel s

/-- The state a result carries. -/
def Res.state {α : Type} : Res α → State
  | .ok _ s => s
  | .fatal _ s => s
  | .outOfFuel s => s

/-! ## Argument cursor -/

/-- Go `ArgumentIterator.getArgument` (lines 49-59). -/
def getArgument (args : List String) (argumentIterator : Nat) (argumentDescription : String) :
    Except Fatal String :=
  if h : args.length ≤ argumentIterator then
    .error (Fatal.missingArgument argumentDescription argumentIterator args)
  else
    .ok (args.get ⟨argumentIterator, Nat.lt_of_not_le h⟩)

/-- Go `ArgumentIterator.hasNextArgument` (lines 60-62). -/
def hasNextArgument (args : List String) (argumentIterator : Nat) : Bool :=
  decide (args.length > argumentIterator)

/-- Go `ArgumentIterator.getNextArgument` (lines 67-71). -/
def getNextArgument (argumentDescription : String) (s : State) : Res String :=
  match getArgument s.args s.argumentIterator argumentDescription with
  | .error e => .fatal e s
  | .ok argumentValue =>
    .ok argumentValue
      { s with
        argumentIterator := s.argumentIterator + 1
        cursorLog := s.cursorLog ++ [s.argumentIterator + 1] }

/-- Go `ArgumentIterator.seeNextArgument` (lines 72-75). -/
def seeNextArgument (argumentDescription : String) (s : State) : Res String :=
  match getArgument s.args s.argumentIterator argumentDescription with
  | .error e => .fatal e s
  | .ok argumentValue => .ok argumentValue s

/-! ## Sink selection -/

/-- Go `setOutput` (lines 102-109). -/
def setOutput (outputValue : String) (s : State) : Res Unit :=
  let s := s.emit (Event.log ("Setting output to: " ++ outputValue))
  if "gohome" == outputValue || "stdout" == outputValue then
    .ok () { s with generationOutput := outputValue }
  else
    .fatal (Fatal.invalidOutputValue outputValue) s

/-! ## Generation and destruction -/

/-- Go `determineAbsolutePluginPath` (lines 111-118), separator `/`. -/
def determineAbsolutePluginPath (env : Env) (pluginNameWithPath : String) (s : State) :
    Res String :=
  match env.abs s.trace (env.gohome ++ "/" ++ "src" ++ "/" ++ pluginNameWithPath) with
  | none => .fatal (Fatal.absFailure pluginNameWithPath) s
  | some generationFileDir => .ok generationFileDir s

/-- Go `destroyPluginTemplate` (lines 120-136). -/
def destroyPluginTemplate (env : Env) (pluginNameWithPath : String) (s : State) : Res Unit :=
  (determineAbsolutePluginPath env pluginNameWithPath
      (s.emit (Event.callDestroy pluginNameWithPath))).bind fun absolutePluginDir s =>
    let s := s.emit
      (Event.log ("Destroying buffalo plugin at directory: [" ++ absolutePluginDir ++ "]"))
    match env.statIsDir s.trace absolutePluginDir with
    | none => .fatal (Fatal.destroyFailure absolutePluginDir) s
    | some true =>
      let s := s.emit (Event.removeAll absolutePluginDir)
      if env.removeAllOk s.trace absolutePluginDir then .ok () s
      else .fatal (Fatal.destroyFailure absolutePluginDir) s
    | some false => .fatal (Fatal.destroyFailure absolutePluginDir) s

/-- Lines 197-200 of `generatePluginTemplate`: run the template on the sink. -/
def executeTemplate (env : Env) (templateParams : TemplateParams) (s : State) : Res Unit :=
  let s := s.emit (Event.execute s.generationOutput templateParams)
  if env.executeOk s.trace s.generationOutput templateParams then .ok () s
  else .fatal (Fatal.generationFailure s.generationOutput) s

/-- Go `generatePluginTemplate` (lines 165-201).  The template body is a
constant that parses, so line 176 is not reached. -/
def generatePluginTemplate (T : UnicodeTables) (env : Env) (buffaloCommand : String)
    (pluginNameWithPath : String) (s : State) : Res Unit :=
  let s := s.emit (Event.callGenerate buffaloCommand pluginNameWithPath)
  let pluginName := filepath.Base pluginNameWithPath
  match determineHandlerName T pluginName with
  | .error e => .fatal e s
  | .ok handlerName =>
    let templateParams : TemplateParams :=
      { BuffaloCommand := buffaloCommand
        PluginName := pluginName
        BuffaloCommandHandlerName := handlerName }
    if "stdout" == s.generationOutput then
      executeTemplate env templateParams
        (s.emit (Event.log ("Generating buffalo plugin at: [" ++ s.generationOutput ++ "]")))
    else if "gohome" == s.generationOutput then
      (determineAbsolutePluginPath env pluginNameWithPath s).bind fun absolutePluginDir s =>
        let generationFilePath := absolutePluginDir ++ "/" ++ pluginName ++ ".go"
        let s := (s.emit (Event.mkdirAll absolutePluginDir)).emit (Event.create generationFilePath)
        if env.createOk s.trace generationFilePath then
          executeTemplate env templateParams
            (s.emit (Event.log ("Generating buffalo plugin at: [" ++ absolutePluginDir ++ "]")))
        else
          .fatal (Fatal.generationFailure generationFilePath) s
    else
      .fatal (Fatal.unexpectedGenerationOutput s.generationOutput) s

/-! ## Dispatcher -/

/-- The `for` loop of `processGeneratePluginTemplate` (lines 204-214), with a
bound on the number of iterations; it ends normally at the `goto generation`
or when no argument is left. -/
def outputFlagLoop : Nat → State → Res Unit
  | 0, s => .outOfFuel s
  | fuel + 1, s =>
    if hasNextArgument s.args s.argumentIterator then
      (seeNextArgument "Flag or buffalo generate plugin-template's parameter" s).bind
        fun flagOrTemplateGeneratorCommand s =>
          if flagOrTemplateGeneratorCommand = "--output" then
            (getNextArgument "--output argument consume" s).bind fun _ s =>
              (getNextArgument "Output value: one of (gohome|stdout)" s).bind fun outputValue s =>
                (setOutput outputValue s).bind fun _ s => outputFlagLoop fuel s
          else
            .ok () s
    else
      .ok () s

/-- Go `processGeneratePluginTemplate` (lines 203-217).  The two arguments of
the call on line 216 are evaluated left to right.  The loop is given one
iteration more than there are arguments left. -/
def processGeneratePluginTemplate (T : UnicodeTables) (env : Env) (s : State) : Res Unit :=
  (outputFlagLoop (s.args.length - s.argumentIterator + 1) s).bind fun _ s =>
    (getNextArgument "<buffalo_command> For which buffalo command is this plugin for." s).bind
      fun buffaloCommand s =>
        (getNextArgument "<plugin_name> Generated plugin name." s).bind
          fun pluginNameWithPath s =>
            generatePluginTemplate T env buffaloCommand pluginNameWithPath s

/-- Go `processDestroyPluginTemplate` (lines 219-221). -/
def processDestroyPluginTemplate (env : Env) (s : State) : Res Unit :=
  (getNextArgument "<plugin_name> Generated plugin name." s).bind
    fun pluginNameWithPath s => destroyPluginTemplate env pluginNameWithPath s

/-- The `for` loop of `main` (lines 249-268), with a bound on the number of
iterations.  `.ok` is a normal end of the process (exit status 0). -/
def mainLoop (T : UnicodeTables) (env : Env) : Nat → State → Res Unit
  | 0, s => .outOfFuel s
  | fuel + 1, s =>
    if hasNextArgument s.args s.argumentIterator then
      (getNextArgument "Flag or buffalo root command" s).bind fun flagOrBuffaloCommand s =>
        if flagOrBuffaloCommand = "available" then
          mainLoop T env fuel (s.emit (Event.printCatalog buffaloCommands))
        else if flagOrBuffaloCommand = "--help" then
          .ok () (s.emit Event.printHelp)
        else if flagOrBuffaloCommand = "plugin-template-generate" then
          (processGeneratePluginTemplate T env s).bind fun _ s => mainLoop T env fuel s
        else if flagOrBuffaloCommand = "plugin-template-destroy" then
          (processDestroyPluginTemplate env s).bind fun _ s => mainLoop T env fuel s
        else
          .ok () ((s.emit (Event.printUnrecognized flagOrBuffaloCommand s.args)).emit
            Event.printHelp)
    else
      .ok () s

/-- The state in which `main` starts: cursor at 1, sink `gohome`, nothing done
yet. -/
def initialState (args : List String) : State :=
  { args := args
    argumentIterator := 1
    generationOutput := "gohome"
    trace := []
    cursorLog := [1] }

/-- Go `main` (lines 223-269) run on `os.Args = args`.  Every iteration of the
loop consumes an argument, so `args.length` iterations are allowed. -/
def main (T : UnicodeTables) (env : Env) (args : List String) : Res Unit :=
  if args.length ≤ 1 then
    .ok () { (initialState args) with trace := [Event.printHelp], cursorLog := [] }
  else
    mainLoop T env args.length (initialState args)

/-- The calls of `generatePluginTemplate` recorded in a trace, in order. -/
def generateCalls : List Event → List (String × String)
  | [] => []
  | Event.callGenerate buffaloCommand pluginNameWithPath :: es =>
    (buffaloCommand, pluginNameWithPath) :: generateCalls es
  | _ :: es => generateCalls es

/-- The cursor is well placed over `args`: the state still reads `args`, the
record of cursor values starts at 1, ends at the current position, never
decreases, and holds only positions from 1 up to the length of `args`. -/
def CursorInv (args : List String) (s : State) : Prop :=
  s.args = args ∧ s.cursorLog.head? = some 1 ∧
  s.cursorLog.getLast? = some s.argumentIterator ∧
  s.cursorLog.Chain' (fun p q => p ≤ q) ∧
  ∀ p ∈ s.cursorLog, 1 ≤ p ∧ p ≤ args.length

/-- Two states agree on everything but the trace. -/
def SameButTrace (s s1 : State) : Prop :=
  s1.args = s.args ∧ s1.argumentIterator = s.argumentIterator ∧
  s1.generationOutput = s.generationOutput ∧ s1.cursorLog = s.cursorLog

/-- The tokens of a sequence of `--output` flags with the values `vs`. -/
def outputFlags (vs : List String) : List String :=
  vs.flatMap (fun v => ["--output", v])

/-- The step ended by itself: it did not exhaust an iteration bound of the
model. -/
def Res.terminated {α : Type} : Res α → Bool
  | .ok _ _ => true
  | .fatal _ _ => true
  | .outOfFuel _ => false

/-- The argument list of the end-to-end example: the program name, then
`plugin-template-generate --output stdout generate buffalo-foo`. -/
def stdoutRunArgs (program : String) : List String :=
  [program, "plugin-template-generate", "--output", "stdout", "generate", "buffalo-foo"]

/-- The events of the end-to-end example up to the call of `tmpl.Execute`. -/
def stdoutRunTrace : List Event :=
  [Event.log "Setting output to: stdout",
    Event.callGenerate "generate" "buffalo-foo",
    Event.log "Generating buffalo plugin at: [stdout]",
    Event.execute "stdout"
      { BuffaloCommand := "generate"
        PluginName := "buffalo-foo"
        BuffaloCommandHandlerName := "handleFoo" }]

/-- The value of `nextCamelCase` after the loop of `determineHandlerName` has
read `cs`, when it started with `b`. -/
def flagAfter (T : UnicodeTables) : Bool → List Char → Bool
  | b, [] => b
  | _, c :: cs => flagAfter T (!isLetterOrNumber T c) cs

/-- The state `s1` comes after `s` in a run: it reads the same arguments and
its cursor is not behind. -/
def Advances (s s1 : State) : Prop :=
  s1.args = s.args ∧ s.argumentIterator ≤ s1.argumentIterator

/-- The state after `getNextArgument` has succeeded in `s`. -/
def State.consume (s : State) : State :=
  { s with
    argumentIterator := s.argumentIterator + 1
    cursorLog := s.cursorLog ++ [s.argumentIterator + 1] }

/-- The scan of `main`, entered at the head of its loop in state `s`, is at the
head of the loop again in state `s1` after `k` iterations: each of them read
`available`, or a `plugin-template-generate` or `plugin-template-destroy`
command whose handler returned. -/
inductive LoopHead (T : UnicodeTables) (env : Env) : Nat → State → State → Prop where
  | start (s : State) : LoopHead T env 0 s s
  | available {k : Nat} {s s1 s2 : State} :
    getNextArgument "Flag or buffalo root command" s = .ok "available" s1 →
    LoopHead T env k (s1.emit (Event.printCatalog buffaloCommands)) s2 →
    LoopHead T env (k + 1) s s2
  | generate {k : Nat} {s s1 s2 s3 : State} :
    getNextArgument "Flag or buffalo root command" s = .ok "plugin-template-generate" s1 →
    processGeneratePluginTemplate T env s1 = .ok () s2 →
    LoopHead T env k s2 s3 →
    LoopHead T env (k + 1) s s3
  | destroy {k : Nat} {s s1 s2 s3 : State} :
    getNextArgument "Flag or buffalo root command" s = .ok "plugin-template-destroy" s1 →
    processDestroyPluginTemplate env s1 = .ok () s2 →
    LoopHead T env k s2 s3 →
    LoopHead T env (k + 1) s s3

/-- The calls of `generatePluginTemplate` and `destroyPluginTemplate` recorded
in a trace, counted. -/
def actionCount : List Event → Nat
  | [] => 0
  | Event.callGenerate _ _ :: es => actionCount es + 1
  | Event.callDestroy _ :: es => actionCount es + 1
  | _ :: es => actionCount es

/-- The state `s` with `os.Args` replaced. -/
def State.withArgs (s : State) (args : List String) : State :=
  { s with args := args }

/-- The three ways the arguments of `plugin-template-generate` can run out
after the accepted `--output` pairs: nothing is left, one positional token is
left, or a last `--output` has no value.  `d` is the description of the
argument that is then missing and `n` the number of tokens consumed before the
failure. -/
def MissingAfterFlags (d : String) (n : Nat) (tail : List String) : Prop :=
  (tail = [] ∧ d = "<buffalo_command> For which buffalo command is this plugin for." ∧ n = 0) ∨
  (∃ x, tail = [x] ∧ x ≠ "--output" ∧ d = "<plugin_name> Generated plugin name." ∧ n = 1) ∨
  (tail = ["--output"] ∧ d = "Output value: one of (gohome|stdout)" ∧ n = 1)

/-- The argument list in which `--output v` comes after the two positional
arguments of `plugin-template-generate`. -/
def lateOutputArgs (program cmd name v : String) : List String :=
  [program, "plugin-template-generate", cmd, name, "--output", v]

/-- The state in which `generatePluginTemplate` is called in a run on
`lateOutputArgs`. -/
def lateOutputState (program cmd name v : String) : State :=
  { args := lateOutputArgs program cmd name v
    argumentIterator := 4
    generationOutput := "gohome"
    trace := []
    cursorLog := [1, 2, 3, 4] }

/-- The cursor is at least `m` beyond twice the number of generation and
destruction calls made so far. -/
def ActInv (m : Nat) (s : State) : Prop :=
  2 * actionCount s.trace + m ≤ s.argumentIterator

/-- An argument list with two `plugin-template-generate` commands. -/
def twoGenerateArgs : List String :=
  ["prog", "plugin-template-generate", "--output", "stdout", "generate", "buffalo-a",
    "plugin-template-generate", "generate", "buffalo-b"]

/-- The argument lists `a` and `b` have the same first `p` entries. -/
def Agree (p : Nat) (a b : List String) : Prop :=
  p ≤ a.length ∧ p ≤ b.length ∧ a.take p = b.take p

/-! ## Properties of the identifier transformer -/

theorem foldl_camelCaseStep (T : UnicodeTables) (cs : List Char) (acc : String) (b : Bool) :
    (cs.foldl (camelCaseStep T) (acc, b)).1 = acc ++ String.mk (camelTail T b cs) := by
  induction cs generalizing acc b with
  | nil => apply String.ext; simp [camelTail]
  | cons c cs ih =>
    by_cases hc : isLetterOrNumber T c = true
    · have hc2 : (unicode.IsLetter T c || unicode.IsNumber T c) = true := hc
      cases b
      · simp only [List.foldl_cons, camelCaseStep, hc2, if_true, camelTail, hc]
        rw [ih]; apply String.ext; simp [String.singleton]
      · simp only [List.foldl_cons, camelCaseStep, hc2, if_true, camelTail, hc]
        rw [ih]; apply String.ext; simp [String.singleton]
    · have hc2 : ¬ (unicode.IsLetter T c || unicode.IsNumber T c) = true := hc
      have hstep : camelCaseStep T (acc, b) c = (acc, true) := by simp [camelCaseStep, hc2]
      rw [List.foldl_cons, hstep, ih]
      simp [camelTail, hc]

theorem camelTail_length (T : UnicodeTables) (b : Bool) (cs : List Char) :
    (camelTail T b cs).length = cs.countP (isLetterOrNumber T) := by
  induction cs generalizing b with
  | nil => simp [camelTail]
  | cons c cs ih =>
    by_cases hc : isLetterOrNumber T c = true
    · simp [camelTail, hc, ih]
    · simp [camelTail, hc, ih]

theorem flatten_capitalize_filter (T : UnicodeTables) (ps : List (List Char)) :
    ((ps.filter (fun run => !run.isEmpty)).map (capitalizeRun T)).flatten
      = (ps.map (capitalizeRun T)).flatten := by
  induction ps with
  | nil => rfl
  | cons p ps ih =>
    cases p with
    | nil => simpa [capitalizeRun] using ih
    | cons c cs => simp [ih]

theorem isDigit_isNumber (T : UnicodeTables) (c : Char) (h : unicode.IsDigit T c = true) :
    unicode.IsNumber T c = true := by
  unfold unicode.IsDigit at h
  unfold unicode.IsNumber
  by_cases hc : c.val < 128
  · simpa [hc] using h
  · simp only [hc, if_false] at h ⊢
    exact T.digit_number c h

theorem isLetterOrNumber_of_isLetterOrDigit (T : UnicodeTables) (c : Char)
    (h : isLetterOrDigit T c = true) : isLetterOrNumber T c = true := by
  unfold isLetterOrDigit at h
  unfold isLetterOrNumber
  rcases Bool.or_eq_true_iff.mp h with hl | hd
  · simp [hl]
  · simp [isDigit_isNumber T c hd]

theorem isLetterOrNumber_eq_isLetterOrDigit (T : UnicodeTables) (c : Char)
    (hc : unicode.IsNumber T c = true → unicode.IsDigit T c = true) :
    isLetterOrNumber T c = isLetterOrDigit T c := by
  unfold isLetterOrNumber isLetterOrDigit
  cases hn : unicode.IsNumber T c with
  | true => rw [hc hn]
  | false =>
    cases hd : unicode.IsDigit T c with
    | true => rw [isDigit_isNumber T c hd] at hn; cases hn
    | false => rfl

theorem camelTail_splitOnP (T : UnicodeTables) (q : Char → Bool) (cs : List Char)
    (hq : ∀ c ∈ cs, isLetterOrNumber T c = q c) :
    ∃ p ps, cs.splitOnP (fun c => !q c) = p :: ps ∧
      camelTail T true cs = capitalizeRun T p ++ (ps.map (capitalizeRun T)).flatten ∧
      camelTail T false cs = p ++ (ps.map (capitalizeRun T)).flatten := by
  induction cs with
  | nil => exact ⟨[], [], by simp, by simp [camelTail, capitalizeRun], by simp [camelTail]⟩
  | cons c cs ih =>
    obtain ⟨p, ps, hsplit, ht, hf⟩ := ih (fun x hx => hq x (List.mem_cons_of_mem _ hx))
    have hqc : isLetterOrNumber T c = q c := hq c (List.mem_cons_self _ _)
    by_cases hc : isLetterOrNumber T c = true
    · have hq1 : q c = true := by rw [← hqc]; exact hc
      refine ⟨c :: p, ps, ?_, ?_, ?_⟩
      · rw [List.splitOnP_cons, hsplit]; simp [hq1]
      · simp [camelTail, hc, hf, capitalizeRun]
      · simp [camelTail, hc, hf]
    · have hq1 : q c = false := by
        rw [← hqc]; simpa using hc
      refine ⟨[], p :: ps, ?_, ?_, ?_⟩
      · rw [List.splitOnP_cons, hsplit]; simp [hq1]
      · simp [camelTail, hc, ht, capitalizeRun]
      · simp [camelTail, hc, ht]

theorem camelTail_eq_runs (T : UnicodeTables) (cs : List Char)
    (hs : ∀ c ∈ cs, unicode.IsNumber T c = true → unicode.IsDigit T c = true) :
    camelTail T true cs = ((alnumRuns T cs).map (capitalizeRun T)).flatten := by
  obtain ⟨p, ps, hsplit, ht, _⟩ := camelTail_splitOnP T (isLetterOrDigit T) cs
    (fun c hc => isLetterOrNumber_eq_isLetterOrDigit T c (hs c hc))
  rw [alnumRuns, flatten_capitalize_filter, hsplit, ht]; simp

theorem determineHandlerName_buffalo (T : UnicodeTables) (s : String) :
    determineHandlerName T ("buffalo-" ++ s) =
      if s.data.countP (isLetterOrNumber T) = 0 then
        .error (Fatal.emptyDerivedIdentifier ("buffalo-" ++ s))
      else .ok ("handle" ++ String.mk (camelTail T true s.data)) := by
  have hpre : strings.HasPrefix ("buffalo-" ++ s) "buffalo-" = true := by
    simp only [strings.HasPrefix, String.data_append]
    exact List.isPrefixOf_iff_prefix.mpr (List.prefix_append _ _)
  have hdrop : ("buffalo-" ++ s).data.drop "buffalo-".length = s.data := by
    rw [String.data_append]; exact List.drop_left _ _
  unfold determineHandlerName
  simp only [hpre, hdrop, foldl_camelCaseStep]
  have hacc : ("" : String) ++ String.mk (camelTail T true s.data)
      = String.mk (camelTail T true s.data) := String.ext rfl
  have hlen : (String.mk (camelTail T true s.data)).length
      = s.data.countP (isLetterOrNumber T) := camelTail_length T true s.data
  simp only [hacc, hlen]
  by_cases h0 : s.data.countP (isLetterOrNumber T) = 0
  · simp [h0]
  · simp [h0]

theorem countP_pos_of_mem (T : UnicodeTables) (cs : List Char)
    (h : ∃ c ∈ cs, isLetterOrNumber T c = true) : cs.countP (isLetterOrNumber T) ≠ 0 := by
  obtain ⟨c, hc, hp⟩ := h
  exact Nat.pos_iff_ne_zero.mp (List.countP_pos_iff.mpr ⟨c, hc, hp⟩)

/-- C1, as the code has it. For every suffix `s` that contains a letter or a
digit and in which every number character is a digit, `determineHandlerName`
applied to `buffalo-` followed by `s` returns `handle` followed by the maximal
letter/digit runs of `s`, in order, each with its first character upper-cased
and the others unchanged, all other characters dropped; and `buffalo-my-plugin`
gives `handleMyPlugin`, `buffalo-my_plugin-two` gives `handleMyPluginTwo`. -/
theorem determineHandlerName_camel_case (T : UnicodeTables) (s : String)
    (h : ∃ c ∈ s.data, isLetterOrDigit T c = true)
    (hs : ∀ c ∈ s.data, unicode.IsNumber T c = true → unicode.IsDigit T c = true) :
    determineHandlerName T ("buffalo-" ++ s) = .ok (specHandlerName T s) ∧
    determineHandlerName T "buffalo-my-plugin" = .ok "handleMyPlugin" ∧
    determineHandlerName T "buffalo-my_plugin-two" = .ok "handleMyPluginTwo" := by
  refine ⟨?_, rfl, rfl⟩
  have h2 : ∃ c ∈ s.data, isLetterOrNumber T c = true := by
    obtain ⟨c, hc, hp⟩ := h
    exact ⟨c, hc, isLetterOrNumber_of_isLetterOrDigit T c hp⟩
  rw [determineHandlerName_buffalo, if_neg (countP_pos_of_mem T _ h2), specHandlerName,
    camelTail_eq_runs T s.data hs]

theorem determineHandlerName_camel_case_witness :
    (∃ c ∈ "my-plugin2".data, isLetterOrDigit fractionTables c = true) ∧
    (∀ c ∈ "my-plugin2".data,
      unicode.IsNumber fractionTables c = true → unicode.IsDigit fractionTables c = true) ∧
    determineHandlerName fractionTables ("buffalo-" ++ "my-plugin2")
      = .ok (specHandlerName fractionTables "my-plugin2") :=
  ⟨⟨'m', by decide, by decide⟩, by decide,
   (determineHandlerName_camel_case fractionTables "my-plugin2" ⟨'m', by decide, by decide⟩
     (by decide)).1⟩

/-- C1, as the claim has it, fails: the suffix `a½` contains a letter, its only
letter/digit run is `a`, so the claim gives `handleA`, and
`determineHandlerName` returns `handleA½`. -/
theorem determineHandlerName_keeps_fraction :
    (∃ c ∈ "a½".data, isLetterOrDigit fractionTables c = true) ∧
    determineHandlerName fractionTables ("buffalo-" ++ "a½") = .ok "handleA½" ∧
    specHandlerName fractionTables "a½" = "handleA" ∧
    "handleA½" ≠ "handleA" := by
  decide

theorem hasPrefix_buffalo_iff (pluginName : String) :
    strings.HasPrefix pluginName "buffalo-" = true ↔ ∃ s : String, pluginName = "buffalo-" ++ s := by
  unfold strings.HasPrefix
  rw [List.isPrefixOf_iff_prefix]
  constructor
  · rintro ⟨t, ht⟩
    exact ⟨String.mk t, String.ext (by rw [String.data_append, ← ht])⟩
  · rintro ⟨s, rfl⟩
    rw [String.data_append]
    exact List.prefix_append _ _

/-- C2. A plugin name that is not `buffalo-` followed by something makes
`determineHandlerName` fail with `invalidPluginName`, so no identifier is
returned; this covers the empty name and every proper prefix of `buffalo-`. -/
theorem determineHandlerName_invalid_name (T : UnicodeTables) (pluginName : String)
    (h : ∀ s : String, pluginName ≠ "buffalo-" ++ s) :
    determineHandlerName T pluginName = .error (Fatal.invalidPluginName pluginName) ∧
    determineHandlerName T "" = .error (Fatal.invalidPluginName "") ∧
    ∀ n, n < 8 →
      determineHandlerName T (String.mk ("buffalo-".data.take n))
        = .error (Fatal.invalidPluginName (String.mk ("buffalo-".data.take n))) := by
  refine ⟨?_, rfl, ?_⟩
  · have hpre : strings.HasPrefix pluginName "buffalo-" = false := by
      cases hp : strings.HasPrefix pluginName "buffalo-" with
      | false => rfl
      | true =>
        obtain ⟨s, hs⟩ := (hasPrefix_buffalo_iff pluginName).mp hp
        exact absurd hs (h s)
    simp [determineHandlerName, hpre]
  · intro n hn
    interval_cases n <;> rfl

theorem determineHandlerName_invalid_name_witness :
    (∀ s : String, "my-plugin" ≠ "buffalo-" ++ s) ∧
    determineHandlerName asciiOnlyTables "my-plugin"
      = .error (Fatal.invalidPluginName "my-plugin") :=
  have h : ∀ s : String, "my-plugin" ≠ "buffalo-" ++ s := fun s hs =>
    absurd (congrArg (fun x => x.data.head?) hs) (by
      simp only [String.data_append]; simp)
  ⟨h, (determineHandlerName_invalid_name asciiOnlyTables "my-plugin" h).1⟩

/-- C3, as the code has it. On `buffalo-` followed by a suffix `s` in which
every number character is a digit, `determineHandlerName` fails with
`emptyDerivedIdentifier` exactly when `s` has no letter and no digit; on
`buffalo-` followed by any suffix `t` that has a letter or a digit it returns an
identifier; `buffalo-` and `buffalo--_-` fail. -/
theorem determineHandlerName_empty_iff (T : UnicodeTables) (s : String)
    (hs : ∀ c ∈ s.data, unicode.IsNumber T c = true → unicode.IsDigit T c = true) :
    (determineHandlerName T ("buffalo-" ++ s)
        = .error (Fatal.emptyDerivedIdentifier ("buffalo-" ++ s)) ↔
      ∀ c ∈ s.data, isLetterOrDigit T c = false) ∧
    (∀ t : String, (∃ c ∈ t.data, isLetterOrDigit T c = true) →
      ∃ name, determineHandlerName T ("buffalo-" ++ t) = .ok name) ∧
    determineHandlerName T "buffalo-" = .error (Fatal.emptyDerivedIdentifier "buffalo-") ∧
    determineHandlerName T "buffalo--_-"
      = .error (Fatal.emptyDerivedIdentifier "buffalo--_-") := by
  refine ⟨?_, ?_, rfl, rfl⟩
  · rw [determineHandlerName_buffalo]
    by_cases h0 : s.data.countP (isLetterOrNumber T) = 0
    · rw [if_pos h0]
      simp only [true_iff]
      intro c hc
      have h1 : isLetterOrNumber T c = false := by
        have := List.countP_eq_zero.mp h0 c hc
        simpa using this
      rw [← isLetterOrNumber_eq_isLetterOrDigit T c (hs c hc)]
      exact h1
    · rw [if_neg h0]
      constructor
      · intro h; cases h
      · intro h
        refine absurd (List.countP_eq_zero.mpr (fun c hc => ?_)) h0
        rw [isLetterOrNumber_eq_isLetterOrDigit T c (hs c hc), h c hc]
        simp
  · intro t h
    have h2 : ∃ c ∈ t.data, isLetterOrNumber T c = true := by
      obtain ⟨c, hc, hp⟩ := h
      exact ⟨c, hc, isLetterOrNumber_of_isLetterOrDigit T c hp⟩
    rw [determineHandlerName_buffalo, if_neg (countP_pos_of_mem T _ h2)]
    exact ⟨_, rfl⟩

theorem determineHandlerName_empty_iff_witness :
    (∀ c ∈ "-_".data,
      unicode.IsNumber fractionTables c = true → unicode.IsDigit fractionTables c = true) ∧
    determineHandlerName fractionTables ("buffalo-" ++ "-_")
      = .error (Fatal.emptyDerivedIdentifier ("buffalo-" ++ "-_")) :=
  ⟨by decide,
   (determineHandlerName_empty_iff fractionTables "-_" (by decide)).1.mpr (by decide)⟩

/-- C3, as the claim has it, fails: the suffix `½` has no letter and no digit,
and `determineHandlerName` returns the identifier `handle½` on `buffalo-½`
instead of failing with `emptyDerivedIdentifier`. -/
theorem determineHandlerName_fraction_not_empty :
    (∀ c ∈ "½".data, isLetterOrDigit fractionTables c = false) ∧
    determineHandlerName fractionTables ("buffalo-" ++ "½") = .ok "handle½" ∧
    determineHandlerName fractionTables ("buffalo-" ++ "½")
      ≠ .error (Fatal.emptyDerivedIdentifier ("buffalo-" ++ "½")) := by
  decide

/-! ## Properties of the argument cursor -/

theorem getArgument_of_lt (args : List String) (i : Nat) (d : String) (h : i < args.length) :
    getArgument args i d = .ok (args.get ⟨i, h⟩) := by
  simp [getArgument, Nat.not_le.mpr h]

theorem getArgument_of_le (args : List String) (i : Nat) (d : String) (h : args.length ≤ i) :
    getArgument args i d = .error (Fatal.missingArgument d i args) := by
  simp [getArgument, h]

/-- C5. At a position below the length of the argument list, `getNextArgument`
returns the argument at that position and moves the position up by exactly one,
`seeNextArgument` returns the same argument and leaves the state as it is, and
consuming is peeking followed by an advance of one. -/
theorem getNextArgument_eq_see_then_advance (s : State) (d : String)
    (h : s.argumentIterator < s.args.length) :
    ∃ v s1, s.args[s.argumentIterator]? = some v ∧
      seeNextArgument d s = .ok v s ∧
      getNextArgument d s = .ok v s1 ∧
      s1.argumentIterator = s.argumentIterator + 1 ∧
      s1.args = s.args ∧ s1.generationOutput = s.generationOutput ∧ s1.trace = s.trace ∧
      getNextArgument d s = (seeNextArgument d s).bind (fun v0 s0 =>
        .ok v0 { s0 with
          argumentIterator := s0.argumentIterator + 1
          cursorLog := s0.cursorLog ++ [s0.argumentIterator + 1] }) := by
  refine ⟨s.args.get ⟨s.argumentIterator, h⟩,
    { s with
      argumentIterator := s.argumentIterator + 1
      cursorLog := s.cursorLog ++ [s.argumentIterator + 1] }, ?_, ?_, ?_, rfl, rfl, rfl, rfl, ?_⟩
  · simp [List.getElem?_eq_getElem h]
  · simp [seeNextArgument, getArgument_of_lt _ _ _ h]
  · simp only [getNextArgument, getArgument_of_lt _ _ _ h]
  · simp [getNextArgument, seeNextArgument, getArgument_of_lt _ _ _ h, Res.bind]

theorem getNextArgument_eq_see_then_advance_witness :
    ∃ v s1, ["prog", "available"][1]? = some v ∧
      seeNextArgument "d" (initialState ["prog", "available"])
        = .ok v (initialState ["prog", "available"]) ∧
      getNextArgument "d" (initialState ["prog", "available"]) = .ok v s1 ∧
      s1.argumentIterator = 2 := by
  obtain ⟨v, s1, h1, h2, h3, h4, _⟩ :=
    getNextArgument_eq_see_then_advance (initialState ["prog", "available"]) "d" (by decide)
  exact ⟨v, s1, h1, h2, h3, h4⟩

/-- C6. At a position at or beyond the length of the argument list, both
`seeNextArgument` and `getNextArgument` fail with `missingArgument` carrying
the description, the position and the whole argument list, and the state, the
position included, is the one they were called in. -/
theorem nextArgument_missing (s : State) (d : String)
    (h : s.args.length ≤ s.argumentIterator) :
    seeNextArgument d s = .fatal (Fatal.missingArgument d s.argumentIterator s.args) s ∧
    getNextArgument d s = .fatal (Fatal.missingArgument d s.argumentIterator s.args) s ∧
    (getNextArgument d s).state.argumentIterator = s.argumentIterator := by
  simp [seeNextArgument, getNextArgument, getArgument_of_le _ _ _ h, Res.state]

theorem nextArgument_missing_witness :
    getNextArgument "d" { (initialState ["prog"]) with argumentIterator := 1 }
      = .fatal (Fatal.missingArgument "d" 1 ["prog"])
          { (initialState ["prog"]) with argumentIterator := 1 } :=
  (nextArgument_missing { (initialState ["prog"]) with argumentIterator := 1 } "d"
    (by decide)).2.1

theorem hasNextArgument_true_iff (args : List String) (i : Nat) :
    hasNextArgument args i = true ↔ i < args.length := by
  simp [hasNextArgument]

/-- C7. `hasNextArgument` is true exactly when the position is below the length
of the argument list. -/
theorem hasNextArgument_iff (args : List String) (argumentIterator : Nat) :
    hasNextArgument args argumentIterator = true ↔ argumentIterator < args.length := by
  simp [hasNextArgument]

/-! ## Frame properties of the handlers -/

theorem Res.bind_state {α β : Type} {P : State → Prop} (r : Res α) (f : α → State → Res β)
    (hr : P r.state) (hf : ∀ a s, r = .ok a s → P (f a s).state) : P (r.bind f).state := by
  cases r with
  | ok a s => exact hf a s rfl
  | fatal e s => exact hr
  | outOfFuel s => exact hr

theorem SameButTrace.refl (s : State) : SameButTrace s s := ⟨rfl, rfl, rfl, rfl⟩

theorem SameButTrace.trans {s s1 s2 : State} (h1 : SameButTrace s s1) (h2 : SameButTrace s1 s2) :
    SameButTrace s s2 :=
  ⟨h2.1.trans h1.1, h2.2.1.trans h1.2.1, h2.2.2.1.trans h1.2.2.1, h2.2.2.2.trans h1.2.2.2⟩

theorem SameButTrace.emit (s : State) (e : Event) : SameButTrace s (s.emit e) :=
  ⟨rfl, rfl, rfl, rfl⟩

theorem determineAbsolutePluginPath_frame (env : Env) (n : String) (s : State) :
    SameButTrace s (determineAbsolutePluginPath env n s).state ∧
    (determineAbsolutePluginPath env n s).state.trace = s.trace := by
  unfold determineAbsolutePluginPath
  cases env.abs s.trace (env.gohome ++ "/" ++ "src" ++ "/" ++ n) <;>
    exact ⟨SameButTrace.refl s, rfl⟩

theorem executeTemplate_frame (env : Env) (p : TemplateParams) (s : State) :
    SameButTrace s (executeTemplate env p s).state := by
  unfold executeTemplate
  simp only
  split <;> exact SameButTrace.emit s _

theorem generatePluginTemplate_frame (T : UnicodeTables) (env : Env) (c n : String) (s : State) :
    SameButTrace s (generatePluginTemplate T env c n s).state := by
  unfold generatePluginTemplate
  simp only
  split
  · exact SameButTrace.emit s _
  · split
    · exact ((SameButTrace.emit s _).trans (SameButTrace.emit _ _)).trans
        (executeTemplate_frame env _ _)
    · split
      · refine Res.bind_state (P := SameButTrace s) _ _ ?_ ?_
        · exact (SameButTrace.emit s _).trans (determineAbsolutePluginPath_frame env n _).1
        · intro a s1 h1
          have hs1 : SameButTrace s s1 := by
            have := (determineAbsolutePluginPath_frame env n
              (s.emit (Event.callGenerate c n))).1
            rw [h1] at this
            exact (SameButTrace.emit s _).trans this
          split
          · exact (hs1.trans ((SameButTrace.emit s1 _).trans
              ((SameButTrace.emit _ _).trans (SameButTrace.emit _ _)))).trans
              (executeTemplate_frame env _ _)
          · exact hs1.trans ((SameButTrace.emit s1 _).trans (SameButTrace.emit _ _))
      · exact SameButTrace.emit s _

theorem destroyPluginTemplate_frame (env : Env) (n : String) (s : State) :
    SameButTrace s (destroyPluginTemplate env n s).state := by
  unfold destroyPluginTemplate
  refine Res.bind_state (P := SameButTrace s) _ _ ?_ ?_
  · exact (SameButTrace.emit s _).trans (determineAbsolutePluginPath_frame env n _).1
  · intro a s1 h1
    have hs1 : SameButTrace s s1 := by
      have := (determineAbsolutePluginPath_frame env n (s.emit (Event.callDestroy n))).1
      rw [h1] at this
      exact (SameButTrace.emit s _).trans this
    dsimp only
    split
    · exact hs1.trans (SameButTrace.emit s1 _)
    · split
      · exact hs1.trans ((SameButTrace.emit s1 _).trans (SameButTrace.emit _ _))
      · exact hs1.trans ((SameButTrace.emit s1 _).trans (SameButTrace.emit _ _))
    · exact hs1.trans (SameButTrace.emit s1 _)
/-! ## The cursor invariant -/

theorem CursorInv.of_eq {args : List String} {s s1 : State} (h : CursorInv args s)
    (ha : s1.args = s.args) (hi : s1.argumentIterator = s.argumentIterator)
    (hl : s1.cursorLog = s.cursorLog) : CursorInv args s1 := by
  unfold CursorInv at *
  rw [ha, hi, hl]
  exact h

theorem CursorInv.of_same {args : List String} {s s1 : State} (h : CursorInv args s)
    (hs : SameButTrace s s1) : CursorInv args s1 :=
  h.of_eq hs.1 hs.2.1 hs.2.2.2

theorem seeNextArgument_state (d : String) (s : State) : (seeNextArgument d s).state = s := by
  unfold seeNextArgument
  split <;> rfl

theorem seeNextArgument_ok {d : String} {s s1 : State} {v : String}
    (h : seeNextArgument d s = .ok v s1) : s1 = s := by
  have := seeNextArgument_state d s
  rw [h] at this
  exact this

theorem getNextArgument_inv {args : List String} (d : String) {s : State}
    (h : CursorInv args s) : CursorInv args (getNextArgument d s).state := by
  unfold getNextArgument
  by_cases hlt : s.argumentIterator < s.args.length
  · rw [getArgument_of_lt _ _ _ hlt]
    obtain ⟨ha, hhead, hlast, hchain, hall⟩ := h
    have hne : s.cursorLog ≠ [] := by
      intro hnil
      rw [hnil] at hhead
      cases hhead
    refine ⟨ha, ?_, ?_, ?_, ?_⟩
    · show (s.cursorLog ++ [s.argumentIterator + 1]).head? = some 1
      rw [List.head?_append_of_ne_nil _ hne]
      exact hhead
    · show (s.cursorLog ++ [s.argumentIterator + 1]).getLast? = some (s.argumentIterator + 1)
      simp
    · show (s.cursorLog ++ [s.argumentIterator + 1]).Chain' (fun p q => p ≤ q)
      rw [List.chain'_append]
      refine ⟨hchain, List.chain'_singleton _, ?_⟩
      intro x hx y hy
      rw [hlast] at hx
      simp only [List.head?_cons, Option.mem_def, Option.some.injEq] at hx hy
      omega
    · intro p hp
      have hp2 : p ∈ s.cursorLog ++ [s.argumentIterator + 1] := hp
      rw [List.mem_append, List.mem_singleton] at hp2
      rcases hp2 with hp2 | hp2
      · exact hall p hp2
      · rw [ha] at hlt
        omega
  · rw [getArgument_of_le _ _ _ (Nat.le_of_not_lt hlt)]
    exact h

theorem getNextArgument_ok_inv {args : List String} {d : String} {s s1 : State} {v : String}
    (h : CursorInv args s) (hok : getNextArgument d s = .ok v s1) : CursorInv args s1 := by
  have := getNextArgument_inv d h
  rw [hok] at this
  exact this

theorem setOutput_inv {args : List String} (v : String) {s : State}
    (h : CursorInv args s) : CursorInv args (setOutput v s).state := by
  unfold setOutput
  dsimp only
  split <;> exact h.of_eq rfl rfl rfl

theorem outputFlagLoop_inv {args : List String} (fuel : Nat) {s : State}
    (h : CursorInv args s) : CursorInv args (outputFlagLoop fuel s).state := by
  induction fuel generalizing s with
  | zero => exact h
  | succ fuel ih =>
    unfold outputFlagLoop
    split
    · refine Res.bind_state (P := CursorInv args) _ _ ?_ ?_
      · rw [seeNextArgument_state]; exact h
      · intro v s1 h1
        have hs1 : CursorInv args s1 := by rw [seeNextArgument_ok h1]; exact h
        split
        · refine Res.bind_state (P := CursorInv args) _ _ (getNextArgument_inv _ hs1) ?_
          intro _ s2 h2
          have hs2 := getNextArgument_ok_inv hs1 h2
          refine Res.bind_state (P := CursorInv args) _ _ (getNextArgument_inv _ hs2) ?_
          intro w s3 h3
          have hs3 := getNextArgument_ok_inv hs2 h3
          refine Res.bind_state (P := CursorInv args) _ _ (setOutput_inv _ hs3) ?_
          intro _ s4 h4
          have hs4 : CursorInv args s4 := by
            have := setOutput_inv w hs3
            rw [h4] at this
            exact this
          exact ih hs4
        · exact hs1
    · exact h

theorem processGeneratePluginTemplate_inv {args : List String} (T : UnicodeTables) (env : Env)
    {s : State} (h : CursorInv args s) :
    CursorInv args (processGeneratePluginTemplate T env s).state := by
  unfold processGeneratePluginTemplate
  refine Res.bind_state (P := CursorInv args) _ _ (outputFlagLoop_inv _ h) ?_
  intro _ s1 h1
  have hs1 : CursorInv args s1 := by
    have := outputFlagLoop_inv (s.args.length - s.argumentIterator + 1) h
    rw [h1] at this
    exact this
  refine Res.bind_state (P := CursorInv args) _ _ (getNextArgument_inv _ hs1) ?_
  intro c s2 h2
  have hs2 := getNextArgument_ok_inv hs1 h2
  refine Res.bind_state (P := CursorInv args) _ _ (getNextArgument_inv _ hs2) ?_
  intro n s3 h3
  exact (getNextArgument_ok_inv hs2 h3).of_same (generatePluginTemplate_frame T env c n s3)

theorem processDestroyPluginTemplate_inv {args : List String} (env : Env)
    {s : State} (h : CursorInv args s) :
    CursorInv args (processDestroyPluginTemplate env s).state := by
  unfold processDestroyPluginTemplate
  refine Res.bind_state (P := CursorInv args) _ _ (getNextArgument_inv _ h) ?_
  intro n s1 h1
  exact (getNextArgument_ok_inv h h1).of_same (destroyPluginTemplate_frame env n s1)

theorem mainLoop_inv {args : List String} (T : UnicodeTables) (env : Env) (fuel : Nat)
    {s : State} (h : CursorInv args s) : CursorInv args (mainLoop T env fuel s).state := by
  induction fuel generalizing s with
  | zero => exact h
  | succ fuel ih =>
    unfold mainLoop
    split
    · refine Res.bind_state (P := CursorInv args) _ _ (getNextArgument_inv _ h) ?_
      intro tok s1 h1
      have hs1 := getNextArgument_ok_inv h h1
      split
      · exact ih (hs1.of_same (SameButTrace.emit s1 _))
      · split
        · exact hs1.of_same (SameButTrace.emit s1 _)
        · split
          · refine Res.bind_state (P := CursorInv args) _ _
              (processGeneratePluginTemplate_inv T env hs1) ?_
            intro _ s2 h2
            have hs2 := processGeneratePluginTemplate_inv T env hs1
            rw [h2] at hs2
            exact ih hs2
          · split
            · refine Res.bind_state (P := CursorInv args) _ _
                (processDestroyPluginTemplate_inv env hs1) ?_
              intro _ s2 h2
              have hs2 := processDestroyPluginTemplate_inv env hs1
              rw [h2] at hs2
              exact ih hs2
            · exact hs1.of_same ((SameButTrace.emit s1 _).trans (SameButTrace.emit _ _))
    · exact h

theorem initialState_inv (args : List String) (h : 2 ≤ args.length) :
    CursorInv args (initialState args) := by
  refine ⟨rfl, rfl, rfl, List.chain'_singleton _, ?_⟩
  intro p hp
  have : p = 1 := by simpa [initialState] using hp
  omega

/-- C8. In a run of `main` the values the cursor takes start at 1 when the
argument list has at least two entries, never decrease, and all lie between 1
and the length of the argument list; the last of them is the final position,
and at each of them `hasNextArgument` is false exactly when the position equals
the length. -/
theorem main_cursor_invariant (T : UnicodeTables) (env : Env) (args : List String) :
    (main T env args).state.cursorLog.Chain' (fun p q => p ≤ q) ∧
    (∀ p ∈ (main T env args).state.cursorLog,
      1 ≤ p ∧ p ≤ args.length ∧ (hasNextArgument args p = false ↔ p = args.length)) ∧
    (2 ≤ args.length →
      (main T env args).state.cursorLog.head? = some 1 ∧
      (main T env args).state.cursorLog.getLast?
        = some (main T env args).state.argumentIterator) := by
  by_cases hlen : args.length ≤ 1
  · have hmain : (main T env args).state.cursorLog = [] := by
      simp [main, hlen, Res.state]
    rw [hmain]
    refine ⟨List.chain'_nil, ?_, ?_⟩
    · intro p hp; cases hp
    · intro h2; omega
  · have hinv : CursorInv args (main T env args).state := by
      simp only [main, hlen, if_false]
      exact mainLoop_inv T env _ (initialState_inv args (by omega))
    obtain ⟨_, hhead, hlast, hchain, hall⟩ := hinv
    refine ⟨hchain, ?_, fun _ => ⟨hhead, hlast⟩⟩
    intro p hp
    obtain ⟨h1, h2⟩ := hall p hp
    refine ⟨h1, h2, ?_⟩
    simp only [hasNextArgument, decide_eq_false_iff_not]
    omega

/-! ## Reading a known token sequence -/

theorem getArgument_at (pre rest : List String) (x d : String) :
    getArgument (pre ++ x :: rest) pre.length d = .ok x := by
  have hlt : pre.length < (pre ++ x :: rest).length := by simp
  rw [getArgument_of_lt _ _ _ hlt]
  simp [List.getElem_append_right]

theorem hasNextArgument_at (pre rest : List String) (x : String) :
    hasNextArgument (pre ++ x :: rest) pre.length = true := by
  simp [hasNextArgument]

theorem seeNextArgument_at {s : State} {pre rest : List String} {x : String} (d : String)
    (hargs : s.args = pre ++ x :: rest) (hpos : s.argumentIterator = pre.length) :
    seeNextArgument d s = .ok x s := by
  simp [seeNextArgument, hargs, hpos, getArgument_at]

theorem getNextArgument_at {s : State} {pre rest : List String} {x : String} (d : String)
    (hargs : s.args = pre ++ x :: rest) (hpos : s.argumentIterator = pre.length) :
    getNextArgument d s = .ok x
      { s with
        argumentIterator := s.argumentIterator + 1
        cursorLog := s.cursorLog ++ [s.argumentIterator + 1] } := by
  simp only [getNextArgument, hargs, hpos, getArgument_at]

/-- The state after one `--output v` pair has been read and accepted. -/
theorem outputFlagLoop_step {s : State} {pre rest : List String} {v : String} (fuel : Nat)
    (hargs : s.args = pre ++ "--output" :: v :: rest) (hpos : s.argumentIterator = pre.length)
    (hv : v = "gohome" ∨ v = "stdout") :
    outputFlagLoop (fuel + 1) s = outputFlagLoop fuel
      { s with
        argumentIterator := s.argumentIterator + 2
        generationOutput := v
        trace := s.trace ++ [Event.log ("Setting output to: " ++ v)]
        cursorLog := s.cursorLog ++ [s.argumentIterator + 1] ++ [s.argumentIterator + 2] } := by
  have hargs2 : s.args = (pre ++ ["--output"]) ++ v :: rest := by simp [hargs]
  have hset : ("gohome" == v || "stdout" == v) = true := by
    rcases hv with rfl | rfl <;> decide
  rw [outputFlagLoop]
  rw [hargs, hpos, hasNextArgument_at, if_pos rfl, ← hargs, ← hpos]
  rw [seeNextArgument_at _ hargs hpos]
  simp only [Res.bind, if_true]
  rw [getNextArgument_at _ hargs hpos]
  simp only []
  rw [@getNextArgument_at _ (pre ++ ["--output"]) rest v _
    (by simp [hargs]) (by simp [hpos])]
  simp only [setOutput, State.emit, hset, if_true]

/-- The failure when the value of an `--output` flag is not accepted. -/
theorem outputFlagLoop_bad {s : State} {pre rest : List String} {v : String} (fuel : Nat)
    (hargs : s.args = pre ++ "--output" :: v :: rest) (hpos : s.argumentIterator = pre.length)
    (hv : v ≠ "gohome" ∧ v ≠ "stdout") :
    outputFlagLoop (fuel + 1) s = .fatal (Fatal.invalidOutputValue v)
      { s with
        argumentIterator := s.argumentIterator + 2
        trace := s.trace ++ [Event.log ("Setting output to: " ++ v)]
        cursorLog := s.cursorLog ++ [s.argumentIterator + 1] ++ [s.argumentIterator + 2] } := by
  have hset : ("gohome" == v || "stdout" == v) = false := by
    have h1 : ("gohome" == v) = false := by
      simpa using fun h => hv.1 h.symm
    have h2 : ("stdout" == v) = false := by
      simpa using fun h => hv.2 h.symm
    rw [h1, h2]; rfl
  rw [outputFlagLoop]
  rw [hargs, hpos, hasNextArgument_at, if_pos rfl, ← hargs, ← hpos]
  rw [seeNextArgument_at _ hargs hpos]
  simp only [Res.bind, if_true]
  rw [getNextArgument_at _ hargs hpos]
  simp only []
  rw [@getNextArgument_at _ (pre ++ ["--output"]) rest v _
    (by simp [hargs]) (by simp [hpos])]
  simp [setOutput, State.emit, hset]

/-- The loop ends without consuming anything when the next token is not
`--output` or no token is left. -/
theorem outputFlagLoop_stop {s : State} {pre tail : List String} (fuel : Nat)
    (hargs : s.args = pre ++ tail) (hpos : s.argumentIterator = pre.length)
    (htail : tail.head? ≠ some "--output") :
    outputFlagLoop (fuel + 1) s = .ok () s := by
  rw [outputFlagLoop]
  cases tail with
  | nil =>
    have : hasNextArgument s.args s.argumentIterator = false := by
      simp [hasNextArgument, hargs, hpos]
    rw [this]; rfl
  | cons x rest =>
    have hx : x ≠ "--output" := by
      intro h; apply htail; simp [h]
    rw [hargs, hpos, hasNextArgument_at, if_pos rfl]
    rw [seeNextArgument_at _ hargs hpos]
    simp [Res.bind, hx]

/-! ## Calls of the generator -/

theorem generateCalls_append (es fs : List Event) :
    generateCalls (es ++ fs) = generateCalls es ++ generateCalls fs := by
  induction es with
  | nil => rfl
  | cons e es ih => cases e <;> simp [generateCalls, ih]

theorem determineAbsolutePluginPath_cases (env : Env) (n : String) (s : State) :
    (∃ dir, determineAbsolutePluginPath env n s = .ok dir s) ∨
    determineAbsolutePluginPath env n s = .fatal (Fatal.absFailure n) s := by
  unfold determineAbsolutePluginPath
  cases env.abs s.trace (env.gohome ++ "/" ++ "src" ++ "/" ++ n) with
  | none => exact Or.inr rfl
  | some dir => exact Or.inl ⟨dir, rfl⟩

theorem generatePluginTemplate_calls (T : UnicodeTables) (env : Env) (c n : String) (s : State) :
    generateCalls (generatePluginTemplate T env c n s).state.trace
      = generateCalls s.trace ++ [(c, n)] := by
  unfold generatePluginTemplate executeTemplate
  rcases determineAbsolutePluginPath_cases env n (s.emit (Event.callGenerate c n)) with
    ⟨dir, h⟩ | h
  all_goals
    simp only [h, Res.bind]
    repeat' split
    all_goals simp_all [State.emit, Res.state, generateCalls_append, generateCalls]

theorem generatePluginTemplate_terminated (T : UnicodeTables) (env : Env) (c n : String)
    (s : State) : (generatePluginTemplate T env c n s).terminated = true := by
  unfold generatePluginTemplate executeTemplate
  rcases determineAbsolutePluginPath_cases env n (s.emit (Event.callGenerate c n)) with
    ⟨dir, h⟩ | h
  all_goals
    simp only [h, Res.bind]
    repeat' split
    all_goals simp_all [Res.terminated]

/-! ## The `--output` loop on a sequence of accepted flags -/

theorem outputFlags_cons (v : String) (vs : List String) :
    outputFlags (v :: vs) = "--output" :: v :: outputFlags vs := by
  simp [outputFlags]

theorem outputFlags_length (vs : List String) : (outputFlags vs).length = 2 * vs.length := by
  induction vs with
  | nil => rfl
  | cons v vs ih => rw [outputFlags_cons]; simp [ih]; omega

theorem getLast?_getD_cons (v g : String) (vs : List String) :
    (v :: vs).getLast?.getD g = vs.getLast?.getD v := by
  rw [List.getLast?_cons]; rfl

/-- Reading `vs.length` accepted `--output` pairs takes as many iterations and
leads to a state that has moved two tokens per pair, selects the last value, and
has called the generator no further. -/
theorem outputFlagLoop_flags (vs : List String) :
    ∀ (pre tail : List String) (s : State),
      s.args = pre ++ outputFlags vs ++ tail → s.argumentIterator = pre.length →
      (∀ v ∈ vs, v = "gohome" ∨ v = "stdout") →
      ∃ s1, (∀ fuel, outputFlagLoop (fuel + vs.length) s = outputFlagLoop fuel s1) ∧
        s1.args = s.args ∧ s1.argumentIterator = s.argumentIterator + 2 * vs.length ∧
        s1.generationOutput = vs.getLast?.getD s.generationOutput ∧
        generateCalls s1.trace = generateCalls s.trace := by
  induction vs with
  | nil =>
    intro pre tail s _ _ _
    exact ⟨s, fun _ => rfl, rfl, rfl, rfl, rfl⟩
  | cons v vs ih =>
    intro pre tail s hargs hpos hvs
    have hv := hvs v (List.mem_cons_self _ _)
    have hargs1 : s.args = pre ++ "--output" :: v :: (outputFlags vs ++ tail) := by
      rw [hargs, outputFlags_cons]; simp
    obtain ⟨s1, hloop, ha, hi, hg, hc⟩ := ih (pre ++ ["--output", v]) tail
      { s with
        argumentIterator := s.argumentIterator + 2
        generationOutput := v
        trace := s.trace ++ [Event.log ("Setting output to: " ++ v)]
        cursorLog := s.cursorLog ++ [s.argumentIterator + 1] ++ [s.argumentIterator + 2] }
      (by simp [hargs1]) (by simp [hpos])
      (fun w hw => hvs w (List.mem_cons_of_mem _ hw))
    refine ⟨s1, ?_, ha, ?_, ?_, ?_⟩
    · intro fuel
      have hfuel : fuel + (v :: vs).length = (fuel + vs.length) + 1 := by
        simp only [List.length_cons]; omega
      rw [hfuel, outputFlagLoop_step _ hargs1 hpos hv]
      exact hloop fuel
    · rw [hi]; simp only [List.length_cons]; omega
    · rw [hg, getLast?_getD_cons]
    · rw [hc]; simp [generateCalls_append, generateCalls]

/-- The arguments left from the cursor on are at least twice as many as the
accepted flags in front of it. -/
theorem fuel_split (pre tail vs : List String) :
    (pre ++ outputFlags vs ++ tail).length - pre.length + 1
      = (vs.length + tail.length) + 1 + vs.length := by
  simp only [List.length_append, outputFlags_length]
  omega

/-- C9. With the cursor at `--output v1 ... --output vk cmd name` followed by
anything, every `vi` accepted and `cmd` not `--output`,
`processGeneratePluginTemplate` ends by itself, moves the cursor by exactly
`2k+2`, leaves the sink at `vk` (unchanged when `k = 0`), and calls the
generator exactly once, with `cmd` and `name` in that order. -/
theorem processGeneratePluginTemplate_flags (T : UnicodeTables) (env : Env) (s : State)
    (pre vs rest : List String) (cmd name : String)
    (hargs : s.args = pre ++ outputFlags vs ++ cmd :: name :: rest)
    (hpos : s.argumentIterator = pre.length)
    (hvs : ∀ v ∈ vs, v = "gohome" ∨ v = "stdout")
    (hcmd : cmd ≠ "--output") :
    (processGeneratePluginTemplate T env s).terminated = true ∧
    (processGeneratePluginTemplate T env s).state.args = s.args ∧
    (processGeneratePluginTemplate T env s).state.argumentIterator
      = s.argumentIterator + (2 * vs.length + 2) ∧
    (processGeneratePluginTemplate T env s).state.generationOutput
      = vs.getLast?.getD s.generationOutput ∧
    generateCalls (processGeneratePluginTemplate T env s).state.trace
      = generateCalls s.trace ++ [(cmd, name)] := by
  obtain ⟨s1, hloop, ha, hi, hg, hc⟩ :=
    outputFlagLoop_flags vs pre (cmd :: name :: rest) s hargs hpos hvs
  have hargs1 : s1.args = (pre ++ outputFlags vs) ++ cmd :: name :: rest := by rw [ha, hargs]
  have hpos1 : s1.argumentIterator = (pre ++ outputFlags vs).length := by
    rw [hi, hpos, List.length_append, outputFlags_length]
  have hstop : outputFlagLoop (s.args.length - s.argumentIterator + 1) s = .ok () s1 := by
    rw [hargs, hpos, fuel_split, hloop]
    exact outputFlagLoop_stop _ hargs1 hpos1 (by simpa using hcmd)
  have hrun : processGeneratePluginTemplate T env s
      = generatePluginTemplate T env cmd name
          { s1 with
            argumentIterator := s1.argumentIterator + 1 + 1
            cursorLog := s1.cursorLog ++ [s1.argumentIterator + 1]
              ++ [s1.argumentIterator + 1 + 1] } := by
    unfold processGeneratePluginTemplate
    rw [hstop]
    simp only [Res.bind]
    rw [getNextArgument_at _ hargs1 hpos1]
    simp only []
    rw [@getNextArgument_at _ (pre ++ outputFlags vs ++ [cmd]) rest name _
      (by simp [hargs1]) (by simp [hpos1]; omega)]
  rw [hrun]
  obtain ⟨fa, fi, fg, _⟩ := generatePluginTemplate_frame T env cmd name
    { s1 with
      argumentIterator := s1.argumentIterator + 1 + 1
      cursorLog := s1.cursorLog ++ [s1.argumentIterator + 1] ++ [s1.argumentIterator + 1 + 1] }
  refine ⟨generatePluginTemplate_terminated _ _ _ _ _, ?_, ?_, ?_, ?_⟩
  · rw [fa]; exact ha
  · rw [fi]; simp only []; rw [hi]; omega
  · rw [fg]; exact hg
  · rw [generatePluginTemplate_calls]; simp only []; rw [hc]

theorem processGeneratePluginTemplate_flags_witness :
    (processGeneratePluginTemplate asciiOnlyTables quietEnv
        { (initialState ["prog", "plugin-template-generate", "--output", "stdout", "generate",
            "buffalo-foo", "available"]) with argumentIterator := 2 }).state.argumentIterator
      = 2 + (2 * 1 + 2) ∧
    generateCalls (processGeneratePluginTemplate asciiOnlyTables quietEnv
        { (initialState ["prog", "plugin-template-generate", "--output", "stdout", "generate",
            "buffalo-foo", "available"]) with argumentIterator := 2 }).state.trace
      = [] ++ [("generate", "buffalo-foo")] :=
  have h := processGeneratePluginTemplate_flags asciiOnlyTables quietEnv
    { (initialState ["prog", "plugin-template-generate", "--output", "stdout", "generate",
        "buffalo-foo", "available"]) with argumentIterator := 2 }
    ["prog", "plugin-template-generate"] ["stdout"] ["available"] "generate" "buffalo-foo"
    rfl rfl (by decide) (by decide)
  ⟨h.2.2.1, h.2.2.2.2⟩

theorem setOutput_accept (v : String) (s : State) (hv : v = "gohome" ∨ v = "stdout") :
    setOutput v s = .ok ()
      { s with
        generationOutput := v
        trace := s.trace ++ [Event.log ("Setting output to: " ++ v)] } := by
  have hset : ("gohome" == v || "stdout" == v) = true := by
    rcases hv with rfl | rfl <;> decide
  simp [setOutput, State.emit, hset]

theorem setOutput_reject (v : String) (s : State) (hv : ¬ (v = "gohome" ∨ v = "stdout")) :
    setOutput v s = .fatal (Fatal.invalidOutputValue v)
      (s.emit (Event.log ("Setting output to: " ++ v))) := by
  have hset : ("gohome" == v || "stdout" == v) = false := by
    have h1 : ("gohome" == v) = false := by
      simpa using fun h => hv (Or.inl h.symm)
    have h2 : ("stdout" == v) = false := by
      simpa using fun h => hv (Or.inr h.symm)
    rw [h1, h2]; rfl
  simp [setOutput, hset]

/-- C10. `setOutput v` succeeds exactly when `v` is `gohome` or `stdout`, and
then the sink selection is `v`; for any other `v`, among them the empty string,
`STDOUT` and `file`, it fails with `invalidOutputValue v` and the sink selection
is as before; and when `processGeneratePluginTemplate` meets such a value after
accepted flags it fails in the same way without a call of the generator. -/
theorem setOutput_iff (v : String) (s : State) :
    ((∃ s1, setOutput v s = .ok () s1) ↔ (v = "gohome" ∨ v = "stdout")) ∧
    ((v = "gohome" ∨ v = "stdout") →
      ∃ s1, setOutput v s = .ok () s1 ∧ s1.generationOutput = v) ∧
    (¬ (v = "gohome" ∨ v = "stdout") →
      ∃ s1, setOutput v s = .fatal (Fatal.invalidOutputValue v) s1 ∧
        s1.generationOutput = s.generationOutput ∧
        generateCalls s1.trace = generateCalls s.trace) ∧
    (∀ w ∈ ["", "STDOUT", "file"],
      setOutput w s = .fatal (Fatal.invalidOutputValue w)
        (s.emit (Event.log ("Setting output to: " ++ w)))) ∧
    (∀ (T : UnicodeTables) (env : Env) (pre vs rest : List String),
      s.args = pre ++ outputFlags vs ++ "--output" :: v :: rest →
      s.argumentIterator = pre.length →
      (∀ w ∈ vs, w = "gohome" ∨ w = "stdout") →
      ¬ (v = "gohome" ∨ v = "stdout") →
      ∃ s1, processGeneratePluginTemplate T env s = .fatal (Fatal.invalidOutputValue v) s1 ∧
        s1.generationOutput = vs.getLast?.getD s.generationOutput ∧
        generateCalls s1.trace = generateCalls s.trace) := by
  refine ⟨?_, ?_, ?_, ?_, ?_⟩
  · constructor
    · rintro ⟨s1, h1⟩
      by_contra hv
      rw [setOutput_reject v s hv] at h1
      cases h1
    · intro hv
      exact ⟨_, setOutput_accept v s hv⟩
  · intro hv
    exact ⟨_, setOutput_accept v s hv, rfl⟩
  · intro hv
    refine ⟨_, setOutput_reject v s hv, rfl, ?_⟩
    simp [State.emit, generateCalls_append, generateCalls]
  · intro w hw
    apply setOutput_reject
    simp only [List.mem_cons, List.mem_singleton, List.not_mem_nil, or_false] at hw
    rcases hw with rfl | rfl | rfl <;> decide
  · intro T env pre vs rest hargs hpos hvs hv
    obtain ⟨s1, hloop, ha, hi, hg, hc⟩ :=
      outputFlagLoop_flags vs pre ("--output" :: v :: rest) s hargs hpos hvs
    have hargs1 : s1.args = (pre ++ outputFlags vs) ++ "--output" :: v :: rest := by
      rw [ha, hargs]
    have hpos1 : s1.argumentIterator = (pre ++ outputFlags vs).length := by
      rw [hi, hpos, List.length_append, outputFlags_length]
    have hbad := outputFlagLoop_bad (vs.length + (rest.length + 2)) hargs1 hpos1
      ⟨fun h => hv (Or.inl h), fun h => hv (Or.inr h)⟩
    refine ⟨{ s1 with
        argumentIterator := s1.argumentIterator + 2
        trace := s1.trace ++ [Event.log ("Setting output to: " ++ v)]
        cursorLog := s1.cursorLog ++ [s1.argumentIterator + 1] ++ [s1.argumentIterator + 2] },
      ?_, hg, ?_⟩
    · unfold processGeneratePluginTemplate
      rw [hargs, hpos, fuel_split, hloop]
      simp only [List.length_cons] at hbad ⊢
      rw [hbad]
      rfl
    · simp only [generateCalls_append, generateCalls, List.append_nil]
      exact hc

/-! ## A complete run -/

theorem determineHandlerName_buffalo_foo (T : UnicodeTables) :
    determineHandlerName T "buffalo-foo" = .ok "handleFoo" := rfl

theorem base_buffalo_foo : filepath.Base "buffalo-foo" = "buffalo-foo" := by decide

theorem main_generate_stdout_run (T : UnicodeTables) (env : Env) (program : String) :
    main T env [program, "plugin-template-generate", "--output", "stdout", "generate",
      "buffalo-foo"]
    = (executeTemplate env
        { BuffaloCommand := "generate"
          PluginName := "buffalo-foo"
          BuffaloCommandHandlerName := "handleFoo" }
        { args := [program, "plugin-template-generate", "--output", "stdout", "generate",
            "buffalo-foo"]
          argumentIterator := 6
          generationOutput := "stdout"
          trace := [Event.log "Setting output to: stdout",
            Event.callGenerate "generate" "buffalo-foo",
            Event.log "Generating buffalo plugin at: [stdout]"]
          cursorLog := [1, 2, 3, 4, 5, 6] }).bind
        (fun _ s => mainLoop T env 5 s) := by
  unfold main
  rw [if_neg (by simp)]
  simp only [List.length_cons, List.length_nil, Nat.reduceAdd]
  rw [mainLoop]
  rw [if_pos (by simp [hasNextArgument, initialState])]
  rw [@getNextArgument_at _ [program]
    ["--output", "stdout", "generate", "buffalo-foo"] "plugin-template-generate" _ rfl rfl]
  simp only [Res.bind]
  rw [if_neg (by decide), if_neg (by decide), if_pos trivial]
  unfold processGeneratePluginTemplate
  simp only [initialState, List.length_cons, List.length_nil, Nat.reduceAdd, Nat.reduceSub,
    List.append_eq, List.cons_append, List.nil_append]
  rw [@outputFlagLoop_step _ [program, "plugin-template-generate"]
    ["generate", "buffalo-foo"] "stdout" 4 rfl rfl (Or.inr rfl)]
  rw [@outputFlagLoop_stop _
    [program, "plugin-template-generate", "--output", "stdout"]
    ["generate", "buffalo-foo"] 3 rfl rfl (by simp)]
  simp only [Res.bind]
  rw [@getNextArgument_at _
    [program, "plugin-template-generate", "--output", "stdout"]
    ["buffalo-foo"] "generate" _ rfl rfl]
  simp only []
  rw [@getNextArgument_at _
    [program, "plugin-template-generate", "--output", "stdout", "generate"]
    [] "buffalo-foo" _ rfl rfl]
  simp only [generatePluginTemplate, base_buffalo_foo, determineHandlerName_buffalo_foo,
    State.emit]
  rfl

theorem mainLoop_at_end (T : UnicodeTables) (env : Env) (fuel : Nat) (s : State)
    (h : s.args.length ≤ s.argumentIterator) : mainLoop T env (fuel + 1) s = .ok () s := by
  rw [mainLoop]
  have : hasNextArgument s.args s.argumentIterator = false := by
    simp [hasNextArgument, h]
  rw [this]
  rfl

/-- C4, as the code has it. On `program plugin-template-generate --output stdout
generate buffalo-foo` the run ends by itself, the sink selection is `stdout`,
and the events are: the log line of `setOutput`, the call of the generator with
`generate` and `buffalo-foo`, its log line, and the template run on `stdout`
with `BuffaloCommand = generate`, `PluginName = buffalo-foo` (the last segment
of the name, prefix kept) and `BuffaloCommandHandlerName = handleFoo`; when
writing succeeds the run ends normally with the cursor at the end. -/
theorem main_generate_stdout (T : UnicodeTables) (env : Env) (program : String) :
    (main T env (stdoutRunArgs program)).terminated = true ∧
    (main T env (stdoutRunArgs program)).state.generationOutput = "stdout" ∧
    (main T env (stdoutRunArgs program)).state.trace = stdoutRunTrace ∧
    (main T env (stdoutRunArgs program)).state.argumentIterator = 6 ∧
    (env.executeOk stdoutRunTrace "stdout"
        { BuffaloCommand := "generate"
          PluginName := "buffalo-foo"
          BuffaloCommandHandlerName := "handleFoo" } = true →
      ∃ s, main T env (stdoutRunArgs program) = .ok () s) := by
  unfold stdoutRunArgs
  rw [main_generate_stdout_run]
  unfold executeTemplate
  simp only [State.emit, List.cons_append, List.nil_append]
  cases h : env.executeOk stdoutRunTrace "stdout"
      { BuffaloCommand := "generate"
        PluginName := "buffalo-foo"
        BuffaloCommandHandlerName := "handleFoo" } with
  | false =>
    unfold stdoutRunTrace at h ⊢
    rw [h]
    simp [Res.bind, Res.state, Res.terminated]
  | true =>
    unfold stdoutRunTrace at h ⊢
    rw [h]
    simp only [if_true, Res.bind]
    rw [mainLoop_at_end _ _ _ _ (by simp)]
    simp [Res.state, Res.terminated]

/-- C4, as the claim has it, fails: in the run of the example the template is
run with `PluginName = buffalo-foo`, and no template run of that trace has
`PluginName = foo`. -/
theorem main_generate_stdout_plugin_name_not_foo :
    (main asciiOnlyTables quietEnv (stdoutRunArgs "buffalo-plugin-template")).state.trace
      = stdoutRunTrace ∧
    ¬ ∃ sink p, Event.execute sink p ∈
        (main asciiOnlyTables quietEnv (stdoutRunArgs "buffalo-plugin-template")).state.trace ∧
      p.PluginName = "foo" := by
  have htrace : (main asciiOnlyTables quietEnv
      (stdoutRunArgs "buffalo-plugin-template")).state.trace = stdoutRunTrace := by decide
  refine ⟨htrace, ?_⟩
  rintro ⟨sink, p, hmem, hp⟩
  rw [htrace] at hmem
  simp only [stdoutRunTrace, List.mem_cons, List.mem_singleton, List.not_mem_nil, or_false,
    Event.execute.injEq, false_or, reduceCtorEq] at hmem
  obtain ⟨_, rfl⟩ := hmem
  exact absurd hp (by decide)

/-! ## Shape of the identifier and its dependence on separators -/

theorem ascii_closed_aux : ∀ n, n < 128 →
    ((Char.ofNat n).isAlpha || (Char.ofNat n).isDigit) = true →
    (Char.ofNat n).toUpper.val < 128 ∧
    ((Char.ofNat n).toUpper.isAlpha || (Char.ofNat n).toUpper.isDigit) = true := by
  decide

theorem ascii_closed (c : Char) (h : c.val < 128) (hc : (c.isAlpha || c.isDigit) = true) :
    c.toUpper.val < 128 ∧ (c.toUpper.isAlpha || c.toUpper.isDigit) = true := by
  have h2 : c.toNat < 128 := h
  have := ascii_closed_aux c.toNat h2
  rw [Char.ofNat_toNat] at this
  exact this hc

theorem isLetterOrNumber_toUpper (T : UnicodeTables)
    (hT : ∀ c, ¬ c.val < 128 → (T.letter c || T.number c) = true →
      isLetterOrNumber T (T.upper c) = true)
    (c : Char) (hc : isLetterOrNumber T c = true) :
    isLetterOrNumber T (unicode.ToUpper T c) = true := by
  by_cases h : c.val < 128
  · have hc2 : (c.isAlpha || c.isDigit) = true := by
      simpa [isLetterOrNumber, unicode.IsLetter, unicode.IsNumber, h] using hc
    obtain ⟨h1, h2⟩ := ascii_closed c h hc2
    simp only [isLetterOrNumber, unicode.IsLetter, unicode.IsNumber, unicode.ToUpper, h, if_true,
      h1]
    exact h2
  · have hc2 : (T.letter c || T.number c) = true := by
      simpa [isLetterOrNumber, unicode.IsLetter, unicode.IsNumber, h] using hc
    simp only [unicode.ToUpper, h, if_false]
    exact hT c h hc2

theorem camelTail_all (T : UnicodeTables)
    (hT : ∀ c, ¬ c.val < 128 → (T.letter c || T.number c) = true →
      isLetterOrNumber T (T.upper c) = true)
    (b : Bool) (cs : List Char) :
    ∀ c ∈ camelTail T b cs, isLetterOrNumber T c = true := by
  induction cs generalizing b with
  | nil => intro c hc; simp [camelTail] at hc
  | cons x cs ih =>
    intro c hc
    by_cases hx : isLetterOrNumber T x = true
    · simp only [camelTail, hx, if_true, List.mem_cons] at hc
      rcases hc with rfl | hc
      · cases b
        · simpa using hx
        · simpa using isLetterOrNumber_toUpper T hT x hx
      · exact ih false c hc
    · simp only [camelTail, hx] at hc
      exact ih true c hc

/-- When `determineHandlerName` returns on `buffalo-` followed by `s`, the
result is `handle` followed by a non-empty `acc` all of whose characters pass
the test of line 146 (letter or number) and which has as many characters as `s`
has characters passing that test, for tables whose upper-case mapping sends
letters and numbers outside ASCII to letters or numbers. -/
theorem determineHandlerName_line146_shape (T : UnicodeTables) (s name : String)
    (hT : ∀ c, ¬ c.val < 128 → (T.letter c || T.number c) = true →
      isLetterOrNumber T (T.upper c) = true)
    (h : determineHandlerName T ("buffalo-" ++ s) = .ok name) :
    ∃ acc : String, name = "handle" ++ acc ∧ acc ≠ "" ∧
      (∀ c ∈ acc.data, isLetterOrNumber T c = true) ∧
      acc.length = s.data.countP (isLetterOrNumber T) := by
  rw [determineHandlerName_buffalo] at h
  by_cases h0 : s.data.countP (isLetterOrNumber T) = 0
  · rw [if_pos h0] at h; cases h
  · rw [if_neg h0] at h
    refine ⟨String.mk (camelTail T true s.data), ?_, ?_, ?_, ?_⟩
    · cases h; rfl
    · intro hacc
      have hlen := camelTail_length T true s.data
      have : (camelTail T true s.data) = [] := congrArg String.data hacc
      rw [this] at hlen
      exact h0 hlen.symm
    · exact camelTail_all T hT true s.data
    · exact camelTail_length T true s.data

/-- C19. On `buffalo-½` the function returns: the result is `handle` followed
by `acc = ½`, whose one character is a number and neither a letter nor a digit,
and `acc` has one character where the suffix `½` has no letter/digit character
at all.  The function meant to produce a Go identifier (line 159) tests
`unicode.IsNumber` at line 146 and so lets such a character through. -/
theorem determineHandlerName_fraction_identifier :
    determineHandlerName fractionTables "buffalo-½" = .ok ("handle" ++ "½") ∧
    unicode.IsNumber fractionTables '½' = true ∧
    unicode.IsLetter fractionTables '½' = false ∧
    unicode.IsDigit fractionTables '½' = false ∧
    (¬ ∀ c ∈ "½".data, isLetterOrDigit fractionTables c = true) ∧
    "½".length = 1 ∧
    "½".data.countP (isLetterOrDigit fractionTables) = 0 := by
  decide

theorem camelTail_append (T : UnicodeTables) (b : Bool) (xs ys : List Char) :
    camelTail T b (xs ++ ys) = camelTail T b xs ++ camelTail T (flagAfter T b xs) ys := by
  induction xs generalizing b with
  | nil => simp [camelTail, flagAfter]
  | cons x xs ih =>
    by_cases hx : isLetterOrNumber T x = true
    · simp [camelTail, flagAfter, hx, ih]
    · simp [camelTail, flagAfter, hx, ih]

theorem camelTail_separators (T : UnicodeTables) (seps cs : List Char)
    (hseps : ∀ c ∈ seps, isLetterOrNumber T c = false) :
    camelTail T true (seps ++ cs) = camelTail T true cs ∧
    (seps ≠ [] → ∀ b, camelTail T b (seps ++ cs) = camelTail T true cs) := by
  induction seps with
  | nil => exact ⟨rfl, fun h => absurd rfl h⟩
  | cons x seps ih =>
    have hx : isLetterOrNumber T x = false := hseps x (List.mem_cons_self _ _)
    obtain ⟨ih1, _⟩ := ih (fun c hc => hseps c (List.mem_cons_of_mem _ hc))
    have hstep : ∀ b, camelTail T b (x :: seps ++ cs) = camelTail T true cs := by
      intro b
      simp only [List.cons_append, camelTail, hx]
      exact ih1
    exact ⟨hstep true, fun _ b => hstep b⟩

theorem camelTail_only_separators (T : UnicodeTables) (b : Bool) (seps : List Char)
    (hseps : ∀ c ∈ seps, isLetterOrNumber T c = false) : camelTail T b seps = [] := by
  induction seps generalizing b with
  | nil => rfl
  | cons x seps ih =>
    have hx : isLetterOrNumber T x = false := hseps x (List.mem_cons_self _ _)
    simp only [camelTail, hx]
    exact ih true (fun c hc => hseps c (List.mem_cons_of_mem _ hc))

theorem countP_separators (T : UnicodeTables) (seps : List Char)
    (hseps : ∀ c ∈ seps, isLetterOrNumber T c = false) :
    seps.countP (isLetterOrNumber T) = 0 := by
  rw [List.countP_eq_zero]
  intro c hc
  simp [hseps c hc]

theorem determineHandlerName_toOption (T : UnicodeTables) (cs : List Char) :
    (determineHandlerName T ("buffalo-" ++ String.mk cs)).toOption =
      if cs.countP (isLetterOrNumber T) = 0 then none
      else some ("handle" ++ String.mk (camelTail T true cs)) := by
  rw [determineHandlerName_buffalo]
  by_cases h0 : cs.countP (isLetterOrNumber T) = 0
  · simp [h0, Except.toOption]
  · simp [h0, Except.toOption]

theorem determineHandlerName_toOption_congr (T : UnicodeTables) (xs ys : List Char)
    (hcount : xs.countP (isLetterOrNumber T) = ys.countP (isLetterOrNumber T))
    (htail : camelTail T true xs = camelTail T true ys) :
    (determineHandlerName T ("buffalo-" ++ String.mk xs)).toOption
      = (determineHandlerName T ("buffalo-" ++ String.mk ys)).toOption := by
  rw [determineHandlerName_toOption, determineHandlerName_toOption, hcount, htail]

/-- C20. `determineHandlerName` is not injective: four different names give
`handleMyPlugin`.  The identifier it returns (or its absence) is the same when a
non-empty block of separators inside the suffix is replaced by another one (a
separator replaced or repeated), when separators are put in front of the suffix
or after it, and when a separator in front of a character that is its own
upper case is taken out. -/
theorem determineHandlerName_separators (T : UnicodeTables) :
    (∃ a b : String, a ≠ b ∧ determineHandlerName T a = determineHandlerName T b ∧
      determineHandlerName T a = .ok "handleMyPlugin") ∧
    (determineHandlerName T "buffalo-my-plugin" = .ok "handleMyPlugin" ∧
      determineHandlerName T "buffalo-my_plugin" = .ok "handleMyPlugin" ∧
      determineHandlerName T "buffalo--my--plugin-" = .ok "handleMyPlugin" ∧
      determineHandlerName T "buffalo-myPlugin" = .ok "handleMyPlugin") ∧
    (∀ pre post seps1 seps2 : List Char, seps1 ≠ [] → seps2 ≠ [] →
      (∀ c ∈ seps1, isLetterOrNumber T c = false) →
      (∀ c ∈ seps2, isLetterOrNumber T c = false) →
      (determineHandlerName T ("buffalo-" ++ String.mk (pre ++ seps1 ++ post))).toOption
        = (determineHandlerName T ("buffalo-" ++ String.mk (pre ++ seps2 ++ post))).toOption) ∧
    (∀ cs seps : List Char, (∀ c ∈ seps, isLetterOrNumber T c = false) →
      (determineHandlerName T ("buffalo-" ++ String.mk (seps ++ cs))).toOption
        = (determineHandlerName T ("buffalo-" ++ String.mk cs)).toOption ∧
      (determineHandlerName T ("buffalo-" ++ String.mk (cs ++ seps))).toOption
        = (determineHandlerName T ("buffalo-" ++ String.mk cs)).toOption) ∧
    (∀ (pre post : List Char) (c u : Char), isLetterOrNumber T c = false →
      unicode.ToUpper T u = u →
      (determineHandlerName T ("buffalo-" ++ String.mk (pre ++ c :: u :: post))).toOption
        = (determineHandlerName T ("buffalo-" ++ String.mk (pre ++ u :: post))).toOption) := by
  refine ⟨⟨"buffalo-my-plugin", "buffalo-myPlugin", by decide, rfl, rfl⟩,
    ⟨rfl, rfl, rfl, rfl⟩, ?_, ?_, ?_⟩
  · intro pre post seps1 seps2 hne1 hne2 h1 h2
    apply determineHandlerName_toOption_congr
    · simp [List.countP_append, countP_separators T _ h1, countP_separators T _ h2]
    · rw [List.append_assoc, List.append_assoc, camelTail_append T true pre (seps1 ++ post),
        camelTail_append T true pre (seps2 ++ post),
        (camelTail_separators T seps1 post h1).2 hne1,
        (camelTail_separators T seps2 post h2).2 hne2]
  · intro cs seps hseps
    constructor
    · apply determineHandlerName_toOption_congr
      · simp [List.countP_append, countP_separators T _ hseps]
      · exact (camelTail_separators T seps cs hseps).1
    · apply determineHandlerName_toOption_congr
      · simp [List.countP_append, countP_separators T _ hseps]
      · rw [camelTail_append, camelTail_only_separators T _ seps hseps, List.append_nil]
  · intro pre post c u hc hu
    apply determineHandlerName_toOption_congr
    · simp [List.countP_append, List.countP_cons, hc]
    · rw [camelTail_append T true pre (c :: u :: post), camelTail_append T true pre (u :: post)]
      congr 1
      by_cases hx : isLetterOrNumber T u = true
      · cases flagAfter T true pre <;> simp [camelTail, hc, hx, hu]
      · simp [camelTail, hc, hx]

/-! ## Template parameters -/

theorem takeWhile_append_separator (l r : List Char) (h : ∀ c ∈ l, c ≠ '/') :
    (l ++ '/' :: r).takeWhile (fun c => c != '/') = l := by
  induction l with
  | nil => simp
  | cons x l ih =>
    have hx : x ≠ '/' := h x (List.mem_cons_self _ _)
    simp [List.takeWhile_cons, hx, ih (fun c hc => h c (List.mem_cons_of_mem _ hc))]

theorem base_last_segment (dir name : List Char) (hne : name ≠ []) (hname : ∀ c ∈ name, c ≠ '/') :
    filepath.Base (String.mk (dir ++ '/' :: name)) = String.mk name := by
  obtain ⟨x, l, hrev⟩ : ∃ x l, name.reverse = x :: l := by
    cases hr : name.reverse with
    | nil => exact absurd (List.reverse_eq_nil_iff.mp hr) hne
    | cons x l => exact ⟨x, l, rfl⟩
  have hx : x ≠ '/' := hname x (by
    have : x ∈ name.reverse := by rw [hrev]; exact List.mem_cons_self _ _
    exact List.mem_reverse.mp this)
  have hall : ∀ c ∈ name.reverse, c ≠ '/' := fun c hc => hname c (List.mem_reverse.mp hc)
  have hdata : (dir ++ '/' :: name).reverse = name.reverse ++ '/' :: dir.reverse := by simp
  have hdrop : (name.reverse ++ '/' :: dir.reverse).dropWhile (fun c => c == '/')
      = name.reverse ++ '/' :: dir.reverse := by
    rw [hrev]; simp [List.dropWhile_cons, hx]
  unfold filepath.Base
  have hnil : (String.mk (dir ++ '/' :: name)).data ≠ [] := by simp
  rw [if_neg hnil]
  simp only [hdata, hdrop, List.reverse_reverse, takeWhile_append_separator _ _ hall]
  rw [if_neg hne]

theorem generatePluginTemplate_error (T : UnicodeTables) (env : Env) (c p : String) (s : State)
    (e : Fatal) (h : determineHandlerName T (filepath.Base p) = .error e) :
    generatePluginTemplate T env c p s = .fatal e (s.emit (Event.callGenerate c p)) := by
  simp only [generatePluginTemplate, h]

theorem generatePluginTemplate_execute (T : UnicodeTables) (env : Env) (c p : String)
    (s : State) (name : String) (h : determineHandlerName T (filepath.Base p) = .ok name)
    (sink : String) (params : TemplateParams)
    (hmem : Event.execute sink params ∈ (generatePluginTemplate T env c p s).state.trace) :
    Event.execute sink params ∈ s.trace ∨
      (sink = s.generationOutput ∧
        params = { BuffaloCommand := c
                   PluginName := filepath.Base p
                   BuffaloCommandHandlerName := name }) := by
  revert hmem
  unfold generatePluginTemplate executeTemplate
  rcases determineAbsolutePluginPath_cases env p (s.emit (Event.callGenerate c p)) with
    ⟨dir, hd⟩ | hd
  all_goals
    simp only [h, hd, Res.bind]
    repeat' split
    all_goals simp_all [State.emit, Res.state]

theorem generatePluginTemplate_stdout (T : UnicodeTables) (env : Env) (c p : String)
    (s : State) (name : String) (h : determineHandlerName T (filepath.Base p) = .ok name)
    (hout : s.generationOutput = "stdout") :
    (generatePluginTemplate T env c p s).state.trace = s.trace ++
      [Event.callGenerate c p, Event.log "Generating buffalo plugin at: [stdout]",
        Event.execute "stdout"
          { BuffaloCommand := c
            PluginName := filepath.Base p
            BuffaloCommandHandlerName := name }] := by
  unfold generatePluginTemplate executeTemplate
  simp only [h, State.emit, hout]
  rw [if_pos (by decide)]
  split <;> simp [Res.state]

theorem determineHandlerName_of_not_buffalo (T : UnicodeTables) (pluginName : String)
    (h : ∀ x : String, pluginName ≠ "buffalo-" ++ x) :
    determineHandlerName T pluginName = .error (Fatal.invalidPluginName pluginName) := by
  have hpre : strings.HasPrefix pluginName "buffalo-" = false := by
    cases hp : strings.HasPrefix pluginName "buffalo-" with
    | false => rfl
    | true =>
      obtain ⟨x, hx⟩ := (hasPrefix_buffalo_iff pluginName).mp hp
      exact absurd hx (h x)
  simp [determineHandlerName, hpre]

/-- C15. `generatePluginTemplate` on a framework command `c` and a name with
path `p` works on the last path segment `filepath.Base p` only: when
`determineHandlerName` rejects that segment the generation fails with the same
error, in particular with `invalidPluginName` when the segment does not start
with `buffalo-`; otherwise every template run it performs has the parameters
`(c, filepath.Base p, determineHandlerName (filepath.Base p))`.  The last
segment does not depend on the leading directories, and `myns/buffalo-foo`
gives the handler `handleFoo`. -/
theorem generatePluginTemplate_params (T : UnicodeTables) (env : Env) (c p : String)
    (s : State) :
    (∀ e, determineHandlerName T (filepath.Base p) = .error e →
      generatePluginTemplate T env c p s = .fatal e (s.emit (Event.callGenerate c p))) ∧
    ((∀ x : String, filepath.Base p ≠ "buffalo-" ++ x) →
      generatePluginTemplate T env c p s
        = .fatal (Fatal.invalidPluginName (filepath.Base p))
            (s.emit (Event.callGenerate c p))) ∧
    (∀ name, determineHandlerName T (filepath.Base p) = .ok name →
      (∀ sink params,
        Event.execute sink params ∈ (generatePluginTemplate T env c p s).state.trace →
        Event.execute sink params ∈ s.trace ∨
          (sink = s.generationOutput ∧
            params = { BuffaloCommand := c
                       PluginName := filepath.Base p
                       BuffaloCommandHandlerName := name })) ∧
      (s.generationOutput = "stdout" →
        (generatePluginTemplate T env c p s).state.trace = s.trace ++
          [Event.callGenerate c p, Event.log "Generating buffalo plugin at: [stdout]",
            Event.execute "stdout"
              { BuffaloCommand := c
                PluginName := filepath.Base p
                BuffaloCommandHandlerName := name }])) ∧
    (∀ dir name : List Char, name ≠ [] → (∀ ch ∈ name, ch ≠ '/') →
      filepath.Base (String.mk (dir ++ '/' :: name)) = String.mk name) ∧
    filepath.Base "myns/buffalo-foo" = "buffalo-foo" ∧
    determineHandlerName T (filepath.Base "myns/buffalo-foo") = .ok "handleFoo" := by
  refine ⟨?_, ?_, ?_, ?_, by decide, ?_⟩
  · intro e he
    exact generatePluginTemplate_error T env c p s e he
  · intro hx
    exact generatePluginTemplate_error T env c p s _
      (determineHandlerName_of_not_buffalo T _ hx)
  · intro name hname
    exact ⟨generatePluginTemplate_execute T env c p s name hname,
      generatePluginTemplate_stdout T env c p s name hname⟩
  · intro dir name hne hname
    exact base_last_segment dir name hne hname
  · have hb : filepath.Base "myns/buffalo-foo" = "buffalo-foo" := by decide
    rw [hb]
    rfl

/-! ## Progress and termination of the loops -/

theorem Res.bind_eq_ok {α β : Type} {r : Res α} {f : α → State → Res β} {b : β} {s2 : State}
    (h : r.bind f = .ok b s2) : ∃ a s1, r = .ok a s1 ∧ f a s1 = .ok b s2 := by
  cases r with
  | ok a s1 => exact ⟨a, s1, rfl, h⟩
  | fatal e s1 => cases h
  | outOfFuel s1 => cases h

theorem Res.bind_terminated {α β : Type} (r : Res α) (f : α → State → Res β)
    (hr : r.terminated = true) (hf : ∀ a s, r = .ok a s → (f a s).terminated = true) :
    (r.bind f).terminated = true := by
  cases r with
  | ok a s => exact hf a s rfl
  | fatal e s => rfl
  | outOfFuel s => cases hr

theorem getNextArgument_cases (d : String) (s : State) :
    (∃ h : s.argumentIterator < s.args.length,
      getNextArgument d s = .ok (s.args.get ⟨s.argumentIterator, h⟩) s.consume) ∨
    (s.args.length ≤ s.argumentIterator ∧
      getNextArgument d s = .fatal (Fatal.missingArgument d s.argumentIterator s.args) s) := by
  by_cases h : s.argumentIterator < s.args.length
  · exact Or.inl ⟨h, by simp only [getNextArgument, getArgument_of_lt _ _ _ h, State.consume]⟩
  · have h2 : s.args.length ≤ s.argumentIterator := Nat.le_of_not_lt h
    exact Or.inr ⟨h2, by simp only [getNextArgument, getArgument_of_le _ _ _ h2]⟩

theorem getNextArgument_ok {d : String} {s s1 : State} {v : String}
    (h : getNextArgument d s = .ok v s1) :
    s1 = s.consume ∧ s.argumentIterator < s.args.length ∧
      s.args[s.argumentIterator]? = some v := by
  rcases getNextArgument_cases d s with ⟨hlt, hok⟩ | ⟨_, hbad⟩
  · rw [hok] at h
    cases h
    exact ⟨rfl, hlt, by simp [List.getElem?_eq_getElem hlt]⟩
  · rw [hbad] at h; cases h

theorem getNextArgument_terminated (d : String) (s : State) :
    (getNextArgument d s).terminated = true := by
  rcases getNextArgument_cases d s with ⟨_, hok⟩ | ⟨_, hbad⟩
  · rw [hok]; rfl
  · rw [hbad]; rfl

theorem seeNextArgument_ok_value {d : String} {s s1 : State} {v : String}
    (h : seeNextArgument d s = .ok v s1) :
    s1 = s ∧ s.argumentIterator < s.args.length ∧ s.args[s.argumentIterator]? = some v := by
  refine ⟨seeNextArgument_ok h, ?_⟩
  by_cases hlt : s.argumentIterator < s.args.length
  · refine ⟨hlt, ?_⟩
    simp only [seeNextArgument, getArgument_of_lt _ _ _ hlt] at h
    cases h
    simp [List.getElem?_eq_getElem hlt]
  · simp only [seeNextArgument, getArgument_of_le _ _ _ (Nat.le_of_not_lt hlt)] at h
    cases h

theorem Advances.same (s : State) : Advances s s := ⟨rfl, Nat.le_refl _⟩

theorem Advances.chain {s s1 s2 : State} (h1 : Advances s s1) (h2 : Advances s1 s2) :
    Advances s s2 := ⟨h2.1.trans h1.1, Nat.le_trans h1.2 h2.2⟩

theorem Advances.of_frame {s s1 : State} (h : SameButTrace s s1) : Advances s s1 :=
  ⟨h.1, Nat.le_of_eq h.2.1.symm⟩

theorem Advances.step (s : State) : Advances s s.consume := ⟨rfl, Nat.le_succ _⟩

theorem setOutput_cases (v : String) (s : State) :
    setOutput v s = .ok ()
        { s with
          generationOutput := v
          trace := s.trace ++ [Event.log ("Setting output to: " ++ v)] } ∨
    setOutput v s = .fatal (Fatal.invalidOutputValue v)
        (s.emit (Event.log ("Setting output to: " ++ v))) := by
  by_cases hv : v = "gohome" ∨ v = "stdout"
  · exact Or.inl (setOutput_accept v s hv)
  · exact Or.inr (setOutput_reject v s hv)

/-- One iteration of the `--output` loop: it goes on two tokens further, or
leaves the loop in the state it was in, or fails; which of these does not
depend on the iterations left. -/
theorem outputFlagLoop_iter (s : State) :
    (∃ s1, s.argumentIterator + 2 ≤ s.args.length ∧ s1.args = s.args ∧
      s1.argumentIterator = s.argumentIterator + 2 ∧
      s1.trace = s.trace ++ [Event.log ("Setting output to: " ++ s1.generationOutput)] ∧
      ∀ fuel, outputFlagLoop (fuel + 1) s = outputFlagLoop fuel s1) ∨
    (∀ fuel, outputFlagLoop (fuel + 1) s = .ok () s) ∨
    (∃ e s1, Advances s s1 ∧ ∀ fuel, outputFlagLoop (fuel + 1) s = .fatal e s1) := by
  by_cases hnext : hasNextArgument s.args s.argumentIterator = true
  · have hlt : s.argumentIterator < s.args.length :=
      (hasNextArgument_true_iff _ _).mp hnext
    have hsee : seeNextArgument "Flag or buffalo generate plugin-template's parameter" s
        = .ok (s.args.get ⟨s.argumentIterator, hlt⟩) s := by
      simp only [seeNextArgument, getArgument_of_lt _ _ _ hlt]
    by_cases hflag : s.args.get ⟨s.argumentIterator, hlt⟩ = "--output"
    · rcases getNextArgument_cases "--output argument consume" s with ⟨_, h1⟩ | ⟨hle, _⟩
      · rcases getNextArgument_cases "Output value: one of (gohome|stdout)" s.consume with
          ⟨hlt2, h2⟩ | ⟨_, h2⟩
        · rcases setOutput_cases (s.consume.args.get ⟨s.consume.argumentIterator, hlt2⟩)
            s.consume.consume with h3 | h3
          · refine Or.inl ⟨{ s.consume.consume with
                generationOutput := s.consume.args.get ⟨s.consume.argumentIterator, hlt2⟩
                trace := s.consume.consume.trace ++ [Event.log ("Setting output to: " ++
                  s.consume.args.get ⟨s.consume.argumentIterator, hlt2⟩)] },
              hlt2, rfl, rfl, rfl, ?_⟩
            intro fuel
            rw [outputFlagLoop, if_pos hnext, hsee]
            simp only [Res.bind, if_pos hflag, h1, h2, h3]
          · refine Or.inr (Or.inr
              ⟨Fatal.invalidOutputValue (s.consume.args.get ⟨s.consume.argumentIterator, hlt2⟩),
               s.consume.consume.emit (Event.log ("Setting output to: " ++
                  s.consume.args.get ⟨s.consume.argumentIterator, hlt2⟩)),
               ⟨rfl, by simp only [State.emit, State.consume]; omega⟩, ?_⟩)
            intro fuel
            rw [outputFlagLoop, if_pos hnext, hsee]
            simp only [Res.bind, if_pos hflag, h1, h2, h3]
        · refine Or.inr (Or.inr
            ⟨Fatal.missingArgument "Output value: one of (gohome|stdout)"
               s.consume.argumentIterator s.consume.args,
             s.consume, Advances.step s, ?_⟩)
          intro fuel
          rw [outputFlagLoop, if_pos hnext, hsee]
          simp only [Res.bind, if_pos hflag, h1, h2]
      · omega
    · refine Or.inr (Or.inl ?_)
      intro fuel
      rw [outputFlagLoop, if_pos hnext, hsee]
      simp only [Res.bind, if_neg hflag]
  · refine Or.inr (Or.inl ?_)
    intro fuel
    rw [outputFlagLoop, if_neg hnext]

theorem outputFlagLoop_terminated (fuel : Nat) (s : State)
    (h : s.args.length - s.argumentIterator < 2 * fuel) :
    (outputFlagLoop fuel s).terminated = true := by
  induction fuel generalizing s with
  | zero => omega
  | succ fuel ih =>
    rcases outputFlagLoop_iter s with ⟨s1, hle, ha, hi, _, hloop⟩ | hstop | ⟨e, s1, _, hbad⟩
    · rw [hloop]
      apply ih
      rw [ha, hi]
      omega
    · rw [hstop]; rfl
    · rw [hbad]; rfl

theorem outputFlagLoop_advances (fuel : Nat) (s : State) :
    Advances s (outputFlagLoop fuel s).state := by
  induction fuel generalizing s with
  | zero => exact Advances.same s
  | succ fuel ih =>
    rcases outputFlagLoop_iter s with ⟨s1, hle, ha, hi, _, hloop⟩ | hstop | ⟨e, s1, hadv, hbad⟩
    · rw [hloop]
      exact Advances.chain ⟨ha, by omega⟩ (ih s1)
    · rw [hstop]; exact Advances.same s
    · rw [hbad]; exact hadv

theorem outputFlagLoop_more_fuel (fuel : Nat) (s : State)
    (h : (outputFlagLoop fuel s).terminated = true) (k : Nat) :
    outputFlagLoop (fuel + k) s = outputFlagLoop fuel s := by
  induction fuel generalizing s with
  | zero => cases h
  | succ fuel ih =>
    have hk : fuel + 1 + k = (fuel + k) + 1 := by omega
    rw [hk]
    rcases outputFlagLoop_iter s with ⟨s1, hle, ha, hi, ht, hloop⟩ | hstop | ⟨e, s1, _, hbad⟩
    · rw [hloop, hloop]
      exact ih s1 (by rw [← hloop]; exact h)
    · rw [hstop, hstop]
    · rw [hbad, hbad]

theorem outputFlagLoop_fuel_irrelevant (f1 f2 : Nat) (s : State)
    (h1 : (outputFlagLoop f1 s).terminated = true)
    (h2 : (outputFlagLoop f2 s).terminated = true) :
    outputFlagLoop f1 s = outputFlagLoop f2 s := by
  rcases Nat.le_total f1 f2 with hle | hle
  · obtain ⟨k, rfl⟩ := Nat.exists_eq_add_of_le hle
    exact (outputFlagLoop_more_fuel f1 s h1 k).symm
  · obtain ⟨k, rfl⟩ := Nat.exists_eq_add_of_le hle
    exact outputFlagLoop_more_fuel f2 s h2 k

theorem processGeneratePluginTemplate_terminated (T : UnicodeTables) (env : Env) (s : State) :
    (processGeneratePluginTemplate T env s).terminated = true := by
  unfold processGeneratePluginTemplate
  refine Res.bind_terminated _ _ (outputFlagLoop_terminated _ _ (by omega)) ?_
  intro _ s1 _
  refine Res.bind_terminated _ _ (getNextArgument_terminated _ _) ?_
  intro c s2 _
  refine Res.bind_terminated _ _ (getNextArgument_terminated _ _) ?_
  intro n s3 _
  exact generatePluginTemplate_terminated T env c n s3

theorem getNextArgument_advances (d : String) (s : State) :
    Advances s (getNextArgument d s).state := by
  rcases getNextArgument_cases d s with ⟨_, hok⟩ | ⟨_, hbad⟩
  · rw [hok]; exact Advances.step s
  · rw [hbad]; exact Advances.same s

theorem Res.bind_advances {α β : Type} {s0 : State} (r : Res α) (f : α → State → Res β)
    (hr : Advances s0 r.state) (hf : ∀ a s, Advances s (f a s).state) :
    Advances s0 (r.bind f).state := by
  cases r with
  | ok a s => exact hr.chain (hf a s)
  | fatal e s => exact hr
  | outOfFuel s => exact hr

theorem processGeneratePluginTemplate_advances (T : UnicodeTables) (env : Env) (s : State) :
    Advances s (processGeneratePluginTemplate T env s).state := by
  unfold processGeneratePluginTemplate
  refine Res.bind_advances _ _ (outputFlagLoop_advances _ s) ?_
  intro _ s1
  refine Res.bind_advances _ _ (getNextArgument_advances _ s1) ?_
  intro c s2
  refine Res.bind_advances _ _ (getNextArgument_advances _ s2) ?_
  intro n s3
  exact Advances.of_frame (generatePluginTemplate_frame T env c n s3)

theorem destroyPluginTemplate_terminated (env : Env) (n : String) (s : State) :
    (destroyPluginTemplate env n s).terminated = true := by
  unfold destroyPluginTemplate
  rcases determineAbsolutePluginPath_cases env n (s.emit (Event.callDestroy n)) with
    ⟨dir, h⟩ | h
  all_goals
    simp only [h, Res.bind]
    repeat' split
    all_goals simp_all [Res.terminated]

theorem processDestroyPluginTemplate_terminated (env : Env) (s : State) :
    (processDestroyPluginTemplate env s).terminated = true := by
  unfold processDestroyPluginTemplate
  refine Res.bind_terminated _ _ (getNextArgument_terminated _ _) ?_
  intro n s1 _
  exact destroyPluginTemplate_terminated env n s1

theorem processDestroyPluginTemplate_advances (env : Env) (s : State) :
    Advances s (processDestroyPluginTemplate env s).state := by
  unfold processDestroyPluginTemplate
  refine Res.bind_advances _ _ (getNextArgument_advances _ s) ?_
  intro n s1
  exact Advances.of_frame (destroyPluginTemplate_frame env n s1)

/-- One iteration of the loop of `main`: it goes on from a state further along
the arguments, or the run ends; which of these does not depend on the
iterations left. -/
theorem mainLoop_iter (T : UnicodeTables) (env : Env) (s : State) :
    (∃ s1, s.argumentIterator < s.args.length ∧ s1.args = s.args ∧
      s.argumentIterator < s1.argumentIterator ∧
      ∀ fuel, mainLoop T env (fuel + 1) s = mainLoop T env fuel s1) ∨
    (∃ r, r.terminated = true ∧ ∀ fuel, mainLoop T env (fuel + 1) s = r) := by
  by_cases hnext : hasNextArgument s.args s.argumentIterator = true
  · have hlt : s.argumentIterator < s.args.length :=
      (hasNextArgument_true_iff _ _).mp hnext
    rcases getNextArgument_cases "Flag or buffalo root command" s with ⟨_, h1⟩ | ⟨hle, _⟩
    · by_cases ha : s.args.get ⟨s.argumentIterator, hlt⟩ = "available"
      · refine Or.inl ⟨s.consume.emit (Event.printCatalog buffaloCommands), hlt, rfl,
          Nat.lt_succ_self _, ?_⟩
        intro fuel
        rw [mainLoop, if_pos hnext, h1]
        simp only [Res.bind, if_pos ha]
      · by_cases hh : s.args.get ⟨s.argumentIterator, hlt⟩ = "--help"
        · refine Or.inr ⟨.ok () (s.consume.emit Event.printHelp), rfl, ?_⟩
          intro fuel
          rw [mainLoop, if_pos hnext, h1]
          simp only [Res.bind, if_neg ha, if_pos hh]
        · by_cases hg : s.args.get ⟨s.argumentIterator, hlt⟩ = "plugin-template-generate"
          · have hterm := processGeneratePluginTemplate_terminated T env s.consume
            have hadv := processGeneratePluginTemplate_advances T env s.consume
            cases hr : processGeneratePluginTemplate T env s.consume with
            | ok u s2 =>
              rw [hr] at hadv
              refine Or.inl ⟨s2, hlt, hadv.1, Nat.lt_of_lt_of_le (Nat.lt_succ_self _) hadv.2, ?_⟩
              intro fuel
              rw [mainLoop, if_pos hnext, h1]
              simp only [Res.bind, if_neg ha, if_neg hh, if_pos hg, hr]
            | fatal e s2 =>
              refine Or.inr ⟨.fatal e s2, rfl, ?_⟩
              intro fuel
              rw [mainLoop, if_pos hnext, h1]
              simp only [Res.bind, if_neg ha, if_neg hh, if_pos hg, hr]
            | outOfFuel s2 => rw [hr] at hterm; cases hterm
          · by_cases hd : s.args.get ⟨s.argumentIterator, hlt⟩ = "plugin-template-destroy"
            · have hterm := processDestroyPluginTemplate_terminated env s.consume
              have hadv := processDestroyPluginTemplate_advances env s.consume
              cases hr : processDestroyPluginTemplate env s.consume with
              | ok u s2 =>
                rw [hr] at hadv
                refine Or.inl ⟨s2, hlt, hadv.1,
                  Nat.lt_of_lt_of_le (Nat.lt_succ_self _) hadv.2, ?_⟩
                intro fuel
                rw [mainLoop, if_pos hnext, h1]
                simp only [Res.bind, if_neg ha, if_neg hh, if_neg hg, if_pos hd, hr]
              | fatal e s2 =>
                refine Or.inr ⟨.fatal e s2, rfl, ?_⟩
                intro fuel
                rw [mainLoop, if_pos hnext, h1]
                simp only [Res.bind, if_neg ha, if_neg hh, if_neg hg, if_pos hd, hr]
              | outOfFuel s2 => rw [hr] at hterm; cases hterm
            · refine Or.inr ⟨.ok () ((s.consume.emit (Event.printUnrecognized
                (s.args.get ⟨s.argumentIterator, hlt⟩) s.consume.args)).emit Event.printHelp),
                rfl, ?_⟩
              intro fuel
              rw [mainLoop, if_pos hnext, h1]
              simp only [Res.bind, if_neg ha, if_neg hh, if_neg hg, if_neg hd]
    · omega
  · refine Or.inr ⟨.ok () s, rfl, ?_⟩
    intro fuel
    rw [mainLoop, if_neg hnext]

theorem mainLoop_terminated (T : UnicodeTables) (env : Env) (fuel : Nat) (s : State)
    (h : s.args.length - s.argumentIterator < fuel) :
    (mainLoop T env fuel s).terminated = true := by
  induction fuel generalizing s with
  | zero => omega
  | succ fuel ih =>
    rcases mainLoop_iter T env s with ⟨s1, hlt, ha, hi, hloop⟩ | ⟨r, hr, hloop⟩
    · rw [hloop]
      apply ih
      rw [ha]
      omega
    · rw [hloop]; exact hr

/-- C18. Every run of `main` ends within the `args.length` iterations it is
given, and `processGeneratePluginTemplate` ends within the iterations it gives
its loop.  An iteration of the loop of `main` either ends the run or goes on
from a state whose cursor is strictly further; an iteration of the `--output`
loop either goes on with the cursor exactly two further, or leaves the loop, or
fails; so both loops end when given more iterations than there are arguments
left. -/
theorem main_terminates (T : UnicodeTables) (env : Env) (args : List String) :
    (main T env args).terminated = true ∧
    (∀ s, (processGeneratePluginTemplate T env s).terminated = true) ∧
    (∀ s : State,
      (∃ s1, s.argumentIterator < s.args.length ∧ s1.args = s.args ∧
        s.argumentIterator < s1.argumentIterator ∧
        ∀ fuel, mainLoop T env (fuel + 1) s = mainLoop T env fuel s1) ∨
      (∃ r, r.terminated = true ∧ ∀ fuel, mainLoop T env (fuel + 1) s = r)) ∧
    (∀ s : State,
      (∃ s1, s.argumentIterator + 2 ≤ s.args.length ∧ s1.args = s.args ∧
        s1.argumentIterator = s.argumentIterator + 2 ∧
        ∀ fuel, outputFlagLoop (fuel + 1) s = outputFlagLoop fuel s1) ∨
      (∀ fuel, outputFlagLoop (fuel + 1) s = .ok () s) ∨
      (∃ e s1, ∀ fuel, outputFlagLoop (fuel + 1) s = .fatal e s1)) ∧
    (∀ fuel (s : State), s.args.length - s.argumentIterator < fuel →
      (mainLoop T env fuel s).terminated = true) ∧
    (∀ fuel (s : State), s.args.length - s.argumentIterator < 2 * fuel →
      (outputFlagLoop fuel s).terminated = true) := by
  refine ⟨?_, processGeneratePluginTemplate_terminated T env, mainLoop_iter T env, ?_,
    mainLoop_terminated T env, outputFlagLoop_terminated⟩
  · unfold main
    split
    · rfl
    · apply mainLoop_terminated
      simp only [initialState]
      omega
  · intro s
    rcases outputFlagLoop_iter s with ⟨s1, hle, ha, hi, _, hloop⟩ | hstop | ⟨e, s1, _, hbad⟩
    · exact Or.inl ⟨s1, hle, ha, hi, hloop⟩
    · exact Or.inr (Or.inl hstop)
    · exact Or.inr (Or.inr ⟨e, s1, hbad⟩)

/-! ## The scan of `main` -/

theorem getNextArgument_of_getElem? {s : State} {v : String} (d : String)
    (h : s.args[s.argumentIterator]? = some v) :
    hasNextArgument s.args s.argumentIterator = true ∧
    getNextArgument d s = .ok v s.consume := by
  have hlt : s.argumentIterator < s.args.length := by
    by_contra hlt
    rw [List.getElem?_eq_none (Nat.le_of_not_lt hlt)] at h
    cases h
  refine ⟨(hasNextArgument_true_iff _ _).mpr hlt, ?_⟩
  rcases getNextArgument_cases d s with ⟨hlt2, hok⟩ | ⟨hle, _⟩
  · rw [hok]
    rw [List.getElem?_eq_getElem hlt] at h
    cases h
    rfl
  · omega

theorem mainLoop_available (T : UnicodeTables) (env : Env) (fuel : Nat) (s : State)
    (h : s.args[s.argumentIterator]? = some "available") :
    mainLoop T env (fuel + 1) s
      = mainLoop T env fuel (s.consume.emit (Event.printCatalog buffaloCommands)) := by
  obtain ⟨hnext, hget⟩ := getNextArgument_of_getElem? "Flag or buffalo root command" h
  rw [mainLoop, if_pos hnext, hget]
  simp only [Res.bind, if_true]

theorem mainLoop_help (T : UnicodeTables) (env : Env) (fuel : Nat) (s : State)
    (h : s.args[s.argumentIterator]? = some "--help") :
    mainLoop T env (fuel + 1) s = .ok () (s.consume.emit Event.printHelp) := by
  obtain ⟨hnext, hget⟩ := getNextArgument_of_getElem? "Flag or buffalo root command" h
  rw [mainLoop, if_pos hnext, hget]
  simp only [Res.bind]
  rw [if_neg (by decide), if_pos trivial]

theorem mainLoop_generate (T : UnicodeTables) (env : Env) (fuel : Nat) (s : State)
    (h : s.args[s.argumentIterator]? = some "plugin-template-generate") :
    mainLoop T env (fuel + 1) s
      = (processGeneratePluginTemplate T env s.consume).bind
          (fun _ s1 => mainLoop T env fuel s1) := by
  obtain ⟨hnext, hget⟩ := getNextArgument_of_getElem? "Flag or buffalo root command" h
  rw [mainLoop, if_pos hnext, hget]
  simp only [Res.bind]
  rw [if_neg (by decide), if_neg (by decide), if_pos trivial]

theorem mainLoop_destroy (T : UnicodeTables) (env : Env) (fuel : Nat) (s : State)
    (h : s.args[s.argumentIterator]? = some "plugin-template-destroy") :
    mainLoop T env (fuel + 1) s
      = (processDestroyPluginTemplate env s.consume).bind
          (fun _ s1 => mainLoop T env fuel s1) := by
  obtain ⟨hnext, hget⟩ := getNextArgument_of_getElem? "Flag or buffalo root command" h
  rw [mainLoop, if_pos hnext, hget]
  simp only [Res.bind]
  rw [if_neg (by decide), if_neg (by decide), if_neg (by decide), if_pos trivial]

theorem mainLoop_unrecognized (T : UnicodeTables) (env : Env) (fuel : Nat) (s : State)
    (tok : String) (h : s.args[s.argumentIterator]? = some tok)
    (h1 : tok ≠ "available") (h2 : tok ≠ "--help") (h3 : tok ≠ "plugin-template-generate")
    (h4 : tok ≠ "plugin-template-destroy") :
    mainLoop T env (fuel + 1) s
      = .ok () ((s.consume.emit (Event.printUnrecognized tok s.args)).emit Event.printHelp) := by
  obtain ⟨hnext, hget⟩ := getNextArgument_of_getElem? "Flag or buffalo root command" h
  rw [mainLoop, if_pos hnext, hget]
  simp only [Res.bind]
  rw [if_neg h1, if_neg h2, if_neg h3, if_neg h4]
  rfl

theorem mainLoop_of_loopHead (T : UnicodeTables) (env : Env) {k : Nat} {s s2 : State}
    (h : LoopHead T env k s s2) (fuel : Nat) :
    mainLoop T env (fuel + k) s = mainLoop T env fuel s2 := by
  induction h with
  | start s => rfl
  | available hget _ ih =>
    obtain ⟨rfl, _, hv⟩ := getNextArgument_ok hget
    rw [← Nat.add_assoc, mainLoop_available T env _ _ hv]
    exact ih
  | generate hget hproc _ ih =>
    obtain ⟨rfl, _, hv⟩ := getNextArgument_ok hget
    rw [← Nat.add_assoc, mainLoop_generate T env _ _ hv, hproc]
    exact ih
  | destroy hget hproc _ ih =>
    obtain ⟨rfl, _, hv⟩ := getNextArgument_ok hget
    rw [← Nat.add_assoc, mainLoop_destroy T env _ _ hv, hproc]
    exact ih

theorem loopHead_advances (T : UnicodeTables) (env : Env) {k : Nat} {s s2 : State}
    (h : LoopHead T env k s s2) :
    s2.args = s.args ∧ s.argumentIterator + k ≤ s2.argumentIterator := by
  induction h with
  | start s => exact ⟨rfl, Nat.le_refl _⟩
  | @available k s s1 s2 hget _ ih =>
    obtain ⟨rfl, _, _⟩ := getNextArgument_ok hget
    refine ⟨ih.1, ?_⟩
    have := ih.2
    simp only [State.emit, State.consume] at this
    omega
  | @generate k s s1 s2 s3 hget hproc _ ih =>
    obtain ⟨rfl, _, _⟩ := getNextArgument_ok hget
    have hadv := processGeneratePluginTemplate_advances T env s.consume
    rw [hproc] at hadv
    refine ⟨ih.1.trans hadv.1, ?_⟩
    have h1 := ih.2
    have h2 := hadv.2
    simp only [State.consume, Res.state] at h2
    omega
  | @destroy k s s1 s2 s3 hget hproc _ ih =>
    obtain ⟨rfl, _, _⟩ := getNextArgument_ok hget
    have hadv := processDestroyPluginTemplate_advances env s.consume
    rw [hproc] at hadv
    refine ⟨ih.1.trans hadv.1, ?_⟩
    have h1 := ih.2
    have h2 := hadv.2
    simp only [State.consume, Res.state] at h2
    omega

/-- A run of `main` whose scan comes to the head of the loop in state `s` with
a token left is the loop entered in `s`. -/
theorem main_of_loopHead (T : UnicodeTables) (env : Env) (args : List String) {k : Nat}
    {s : State} (h : LoopHead T env k (initialState args) s)
    (hlt : s.argumentIterator < s.args.length) :
    ∃ fuel, main T env args = mainLoop T env (fuel + 1) s := by
  obtain ⟨ha, hk⟩ := loopHead_advances T env h
  have ha2 : s.args = args := ha
  have hk2 : 1 + k ≤ s.argumentIterator := hk
  have hlen : ¬ args.length ≤ 1 := by rw [ha2] at hlt; omega
  refine ⟨args.length - k - 1, ?_⟩
  unfold main
  rw [if_neg hlen]
  have hfuel : args.length = (args.length - k - 1 + 1) + k := by rw [ha2] at hlt; omega
  conv_lhs => rw [hfuel]
  exact mainLoop_of_loopHead T env h _

theorem mainLoop_more_fuel (T : UnicodeTables) (env : Env) (fuel : Nat) (s : State)
    (h : (mainLoop T env fuel s).terminated = true) (k : Nat) :
    mainLoop T env (fuel + k) s = mainLoop T env fuel s := by
  induction fuel generalizing s with
  | zero => cases h
  | succ fuel ih =>
    have hk : fuel + 1 + k = (fuel + k) + 1 := by omega
    rw [hk]
    rcases mainLoop_iter T env s with ⟨s1, _, _, _, hloop⟩ | ⟨r, _, hloop⟩
    · rw [hloop, hloop]
      exact ih s1 (by rw [← hloop]; exact h)
    · rw [hloop, hloop]

theorem bind_mainLoop_at_end (T : UnicodeTables) (env : Env) (fuel : Nat) (r : Res Unit)
    (h : r.state.args.length ≤ r.state.argumentIterator) (hr : r.terminated = true) :
    r.bind (fun _ s => mainLoop T env (fuel + 1) s) = r := by
  cases r with
  | ok u s => exact mainLoop_at_end T env fuel s h
  | fatal e s => rfl
  | outOfFuel s => cases hr

/-- C11. A run on `program available` followed by the tokens `t` prints the
catalog and is then the loop of `main` entered with the cursor on the first
token of `t`, for which the `t.length + 1` iterations left, or any more, are
enough; the run is not over after `available`.  With `available` twice the
catalog is printed twice, and with `plugin-template-destroy n` after it the
catalog is printed and the destruction of `n` is performed. -/
theorem main_available (T : UnicodeTables) (env : Env) (program : String) (t : List String) :
    main T env ([program, "available"] ++ t)
      = mainLoop T env (t.length + 1)
          { args := [program, "available"] ++ t
            argumentIterator := 2
            generationOutput := "gohome"
            trace := [Event.printCatalog buffaloCommands]
            cursorLog := [1, 2] } ∧
    (∀ k, mainLoop T env (t.length + 1 + k)
          { args := [program, "available"] ++ t
            argumentIterator := 2
            generationOutput := "gohome"
            trace := [Event.printCatalog buffaloCommands]
            cursorLog := [1, 2] }
        = main T env ([program, "available"] ++ t)) ∧
    main T env [program, "available", "available"]
      = .ok ()
          { args := [program, "available", "available"]
            argumentIterator := 3
            generationOutput := "gohome"
            trace := [Event.printCatalog buffaloCommands, Event.printCatalog buffaloCommands]
            cursorLog := [1, 2, 3] } ∧
    (∀ n, main T env [program, "available", "plugin-template-destroy", n]
      = destroyPluginTemplate env n
          { args := [program, "available", "plugin-template-destroy", n]
            argumentIterator := 4
            generationOutput := "gohome"
            trace := [Event.printCatalog buffaloCommands]
            cursorLog := [1, 2, 3, 4] }) := by
  have hrun : ∀ t : List String, main T env ([program, "available"] ++ t)
      = mainLoop T env (t.length + 1)
          { args := [program, "available"] ++ t
            argumentIterator := 2
            generationOutput := "gohome"
            trace := [Event.printCatalog buffaloCommands]
            cursorLog := [1, 2] } := by
    intro t
    unfold main
    rw [if_neg (by simp)]
    have hlen : ([program, "available"] ++ t).length = t.length + 1 + 1 := by
      simp
    rw [hlen, mainLoop_available T env _ _ (by simp [initialState])]
    rfl
  refine ⟨hrun t, ?_, ?_, ?_⟩
  · intro k
    rw [hrun t]
    apply mainLoop_more_fuel
    apply mainLoop_terminated
    simp
  · have h := hrun ["available"]
    simp only [List.cons_append, List.nil_append, List.length_cons, List.length_nil] at h
    rw [h, mainLoop_available T env _ _ (by simp)]
    rw [mainLoop_at_end T env 0 _ (by simp [State.emit, State.consume])]
    rfl
  · intro n
    have h := hrun ["plugin-template-destroy", n]
    simp only [List.cons_append, List.nil_append, List.length_cons, List.length_nil] at h
    rw [h, mainLoop_destroy T env _ _ (by simp)]
    unfold processDestroyPluginTemplate
    rw [@getNextArgument_at _ [program, "available", "plugin-template-destroy"] [] n _ rfl rfl]
    simp only [Res.bind]
    show (destroyPluginTemplate env n
        { args := [program, "available", "plugin-template-destroy", n]
          argumentIterator := 4
          generationOutput := "gohome"
          trace := [Event.printCatalog buffaloCommands]
          cursorLog := [1, 2, 3, 4] }).bind (fun _ s => mainLoop T env (1 + 1) s) = _
    apply bind_mainLoop_at_end
    · have := destroyPluginTemplate_frame env n
        { args := [program, "available", "plugin-template-destroy", n]
          argumentIterator := 4
          generationOutput := "gohome"
          trace := [Event.printCatalog buffaloCommands]
          cursorLog := [1, 2, 3, 4] }
      rw [this.1, this.2.1]
      simp
    · exact destroyPluginTemplate_terminated env n _

/-- C14. When the scan of `main` comes to a token that is none of `available`,
`--help`, `plugin-template-generate` and `plugin-template-destroy`, the run
ends normally: that token is consumed and no other, and the only events added
are the report of the token with the whole argument list and the help text.
This holds for the loop entered in any state, for a whole run whose scan
reaches the token, and in particular when the token is the first one. -/
theorem main_unrecognized (T : UnicodeTables) (env : Env) :
    (∀ (fuel : Nat) (s : State) (tok : String), s.args[s.argumentIterator]? = some tok →
      tok ≠ "available" → tok ≠ "--help" → tok ≠ "plugin-template-generate" →
      tok ≠ "plugin-template-destroy" →
      mainLoop T env (fuel + 1) s
        = .ok () ((s.consume.emit (Event.printUnrecognized tok s.args)).emit
            Event.printHelp)) ∧
    (∀ (args : List String) (k : Nat) (s : State) (tok : String),
      LoopHead T env k (initialState args) s → s.args[s.argumentIterator]? = some tok →
      tok ≠ "available" → tok ≠ "--help" → tok ≠ "plugin-template-generate" →
      tok ≠ "plugin-template-destroy" →
      main T env args
        = .ok () ((s.consume.emit (Event.printUnrecognized tok args)).emit Event.printHelp)) ∧
    (∀ (program tok : String) (rest : List String),
      tok ≠ "available" → tok ≠ "--help" → tok ≠ "plugin-template-generate" →
      tok ≠ "plugin-template-destroy" →
      main T env (program :: tok :: rest)
        = .ok ()
            { args := program :: tok :: rest
              argumentIterator := 2
              generationOutput := "gohome"
              trace := [Event.printUnrecognized tok (program :: tok :: rest), Event.printHelp]
              cursorLog := [1, 2] }) := by
  have hwhole : ∀ (args : List String) (k : Nat) (s : State) (tok : String),
      LoopHead T env k (initialState args) s → s.args[s.argumentIterator]? = some tok →
      tok ≠ "available" → tok ≠ "--help" → tok ≠ "plugin-template-generate" →
      tok ≠ "plugin-template-destroy" →
      main T env args
        = .ok () ((s.consume.emit (Event.printUnrecognized tok args)).emit
            Event.printHelp) := by
    intro args k s tok hhead htok h1 h2 h3 h4
    have hlt : s.argumentIterator < s.args.length := by
      by_contra hlt
      rw [List.getElem?_eq_none (Nat.le_of_not_lt hlt)] at htok
      cases htok
    obtain ⟨fuel, hmain⟩ := main_of_loopHead T env args hhead hlt
    have hargs : s.args = args := (loopHead_advances T env hhead).1
    rw [hmain, mainLoop_unrecognized T env fuel s tok htok h1 h2 h3 h4, hargs]
  refine ⟨fun fuel s tok => mainLoop_unrecognized T env fuel s tok, hwhole, ?_⟩
  intro program tok rest h1 h2 h3 h4
  exact hwhole (program :: tok :: rest) 0 _ tok (LoopHead.start _)
    (by simp [initialState]) h1 h2 h3 h4

/-! ## Missing arguments of `plugin-template-generate` -/

theorem getNextArgument_at_end {s : State} (d : String)
    (h : s.args.length ≤ s.argumentIterator) :
    getNextArgument d s = .fatal (Fatal.missingArgument d s.argumentIterator s.args) s := by
  simp only [getNextArgument, getArgument_of_le _ _ _ h]

theorem outputFlagLoop_no_value {s : State} {pre : List String} (fuel : Nat)
    (hargs : s.args = pre ++ ["--output"]) (hpos : s.argumentIterator = pre.length) :
    outputFlagLoop (fuel + 1) s
      = .fatal (Fatal.missingArgument "Output value: one of (gohome|stdout)"
          (s.argumentIterator + 1) s.args) s.consume := by
  have hv : s.args[s.argumentIterator]? = some "--output" := by
    rw [hargs, hpos]; simp
  obtain ⟨hnext, hget⟩ := getNextArgument_of_getElem? "--output argument consume" hv
  have hsee : seeNextArgument "Flag or buffalo generate plugin-template's parameter" s
      = .ok "--output" s := seeNextArgument_at _ hargs hpos
  rw [outputFlagLoop, if_pos hnext, hsee]
  simp only [Res.bind, if_true]
  rw [hget]
  simp only []
  rw [getNextArgument_at_end _ (by simp [State.consume, hargs, hpos])]
  rfl

theorem processGeneratePluginTemplate_missing_aux (T : UnicodeTables) (env : Env) (s : State)
    (pre vs tail : List String) (d : String) (n : Nat)
    (hargs : s.args = pre ++ outputFlags vs ++ tail) (hpos : s.argumentIterator = pre.length)
    (hvs : ∀ v ∈ vs, v = "gohome" ∨ v = "stdout") (htail : MissingAfterFlags d n tail) :
    ∃ s1, processGeneratePluginTemplate T env s
        = .fatal (Fatal.missingArgument d (s.argumentIterator + 2 * vs.length + n) s.args) s1 ∧
      s1.args = s.args ∧
      s1.argumentIterator = s.argumentIterator + 2 * vs.length + n ∧
      generateCalls s1.trace = generateCalls s.trace := by
  obtain ⟨s1, hloop, ha, hi, hg, hc⟩ := outputFlagLoop_flags vs pre tail s hargs hpos hvs
  have hargs1 : s1.args = (pre ++ outputFlags vs) ++ tail := by rw [ha, hargs]
  have hpos1 : s1.argumentIterator = (pre ++ outputFlags vs).length := by
    rw [hi, hpos, List.length_append, outputFlags_length]
  have hfuel : processGeneratePluginTemplate T env s
      = (outputFlagLoop (tail.length + vs.length + 1) s1).bind fun _ s2 =>
        (getNextArgument "<buffalo_command> For which buffalo command is this plugin for."
          s2).bind fun buffaloCommand s3 =>
          (getNextArgument "<plugin_name> Generated plugin name." s3).bind
            fun pluginNameWithPath s4 =>
              generatePluginTemplate T env buffaloCommand pluginNameWithPath s4 := by
    unfold processGeneratePluginTemplate
    rw [hargs, hpos, fuel_split, hloop]
    have : vs.length + tail.length + 1 = tail.length + vs.length + 1 := by omega
    rw [this]
  rw [hfuel]
  rcases htail with ⟨rfl, rfl, rfl⟩ | ⟨x, rfl, hx, rfl, rfl⟩ | ⟨rfl, rfl, rfl⟩
  · refine ⟨s1, ?_, ha, by omega, hc⟩
    rw [outputFlagLoop_stop _ hargs1 hpos1 (by simp)]
    simp only [Res.bind]
    rw [getNextArgument_at_end _ (by rw [hargs1, hpos1]; simp), hi, ha]
    rfl
  · refine ⟨s1.consume, ?_, ha, by simp only [State.consume]; omega, hc⟩
    rw [outputFlagLoop_stop _ hargs1 hpos1 (by simpa using hx)]
    simp only [Res.bind]
    rw [getNextArgument_at _ hargs1 hpos1]
    simp only []
    rw [getNextArgument_at_end _ (by simp [hargs1, hpos1]; omega)]
    simp only [State.consume, hi, ha]
  · refine ⟨s1.consume, ?_, ha, by simp only [State.consume]; omega, hc⟩
    rw [outputFlagLoop_no_value _ hargs1 hpos1]
    simp only [Res.bind, State.consume, hi, ha]

theorem getElem?_at (pre rest : List String) (x : String) :
    (pre ++ x :: rest)[pre.length]? = some x := by
  rw [List.getElem?_append_right (Nat.le_refl _)]
  simp

theorem main_generate_missing_aux (T : UnicodeTables) (env : Env) (args : List String) (k : Nat)
    (s0 : State) (pre vs tail : List String) (d : String) (n : Nat)
    (hhead : LoopHead T env k (initialState args) s0)
    (hargs : args = pre ++ "plugin-template-generate" :: (outputFlags vs ++ tail))
    (hpos : s0.argumentIterator = pre.length)
    (hvs : ∀ v ∈ vs, v = "gohome" ∨ v = "stdout") (htail : MissingAfterFlags d n tail) :
    ∃ s1, main T env args
        = .fatal (Fatal.missingArgument d (pre.length + 1 + 2 * vs.length + n) args) s1 ∧
      s1.argumentIterator = pre.length + 1 + 2 * vs.length + n ∧
      generateCalls s1.trace = generateCalls s0.trace := by
  have ha0 : s0.args = args := (loopHead_advances T env hhead).1
  have htok : s0.args[s0.argumentIterator]? = some "plugin-template-generate" := by
    rw [ha0, hargs, hpos]; exact getElem?_at _ _ _
  have hlt : s0.argumentIterator < s0.args.length := by
    by_contra hlt
    rw [List.getElem?_eq_none (Nat.le_of_not_lt hlt)] at htok
    cases htok
  obtain ⟨fuel, hmain⟩ := main_of_loopHead T env args hhead hlt
  obtain ⟨s1, hproc, _, hi, hc⟩ := processGeneratePluginTemplate_missing_aux T env s0.consume
    (pre ++ ["plugin-template-generate"]) vs tail d n
    (by simp only [State.consume]; rw [ha0, hargs]; simp)
    (by simp [State.consume, hpos]) hvs htail
  refine ⟨s1, ?_, ?_, ?_⟩
  · rw [hmain, mainLoop_generate T env fuel s0 htok, hproc]
    simp only [Res.bind, State.consume, hpos, ha0]
  · rw [hi]; simp only [State.consume, hpos]
  · rw [hc]; rfl

/-- C16. When the accepted `--output` pairs after `plugin-template-generate`
are followed by no token, by one positional token, or by a last `--output`
without a value, `processGeneratePluginTemplate` fails with `missingArgument`
and the generator is not called: for the framework command when nothing is
left, for the plugin name after the one positional token has been consumed,
for the output value after the flag has been consumed.  A run of `main` whose
scan reaches such a command fails in the same way, as do the three shortest
such runs. -/
theorem processGeneratePluginTemplate_missing (T : UnicodeTables) (env : Env) :
    (∀ (s : State) (pre vs tail : List String) (d : String) (n : Nat),
      s.args = pre ++ outputFlags vs ++ tail → s.argumentIterator = pre.length →
      (∀ v ∈ vs, v = "gohome" ∨ v = "stdout") → MissingAfterFlags d n tail →
      ∃ s1, processGeneratePluginTemplate T env s
          = .fatal (Fatal.missingArgument d (s.argumentIterator + 2 * vs.length + n) s.args)
              s1 ∧
        s1.argumentIterator = s.argumentIterator + 2 * vs.length + n ∧
        generateCalls s1.trace = generateCalls s.trace) ∧
    (∀ (args : List String) (k : Nat) (s0 : State) (pre vs tail : List String) (d : String)
      (n : Nat), LoopHead T env k (initialState args) s0 →
      args = pre ++ "plugin-template-generate" :: (outputFlags vs ++ tail) →
      s0.argumentIterator = pre.length →
      (∀ v ∈ vs, v = "gohome" ∨ v = "stdout") → MissingAfterFlags d n tail →
      ∃ s1, main T env args
          = .fatal (Fatal.missingArgument d (pre.length + 1 + 2 * vs.length + n) args) s1 ∧
        s1.argumentIterator = pre.length + 1 + 2 * vs.length + n ∧
        generateCalls s1.trace = generateCalls s0.trace) ∧
    (∀ program : String,
      ∃ s1, main T env [program, "plugin-template-generate"]
          = .fatal (Fatal.missingArgument
              "<buffalo_command> For which buffalo command is this plugin for." 2
              [program, "plugin-template-generate"]) s1 ∧
        generateCalls s1.trace = []) ∧
    (∀ program x : String, x ≠ "--output" →
      ∃ s1, main T env [program, "plugin-template-generate", x]
          = .fatal (Fatal.missingArgument "<plugin_name> Generated plugin name." 3
              [program, "plugin-template-generate", x]) s1 ∧
        s1.argumentIterator = 3 ∧ generateCalls s1.trace = []) ∧
    (∀ program : String,
      ∃ s1, main T env [program, "plugin-template-generate", "--output"]
          = .fatal (Fatal.missingArgument "Output value: one of (gohome|stdout)" 3
              [program, "plugin-template-generate", "--output"]) s1 ∧
        s1.argumentIterator = 3 ∧ generateCalls s1.trace = []) := by
  refine ⟨?_, ?_, ?_, ?_, ?_⟩
  · intro s pre vs tail d n hargs hpos hvs htail
    obtain ⟨s1, h1, _, h2, h3⟩ :=
      processGeneratePluginTemplate_missing_aux T env s pre vs tail d n hargs hpos hvs htail
    exact ⟨s1, h1, h2, h3⟩
  · intro args k s0 pre vs tail d n hhead hargs hpos hvs htail
    exact main_generate_missing_aux T env args k s0 pre vs tail d n hhead hargs hpos hvs htail
  · intro program
    obtain ⟨s1, h1, _, h3⟩ := main_generate_missing_aux T env
      [program, "plugin-template-generate"] 0 _ [program] [] [] _ 0 (LoopHead.start _) rfl rfl
      (by simp) (Or.inl ⟨rfl, rfl, rfl⟩)
    exact ⟨s1, h1, h3⟩
  · intro program x hx
    obtain ⟨s1, h1, h2, h3⟩ := main_generate_missing_aux T env
      [program, "plugin-template-generate", x] 0 _ [program] [] [x] _ 1 (LoopHead.start _)
      rfl rfl (by simp) (Or.inr (Or.inl ⟨x, rfl, hx, rfl, rfl⟩))
    exact ⟨s1, h1, h2, h3⟩
  · intro program
    obtain ⟨s1, h1, h2, h3⟩ := main_generate_missing_aux T env
      [program, "plugin-template-generate", "--output"] 0 _ [program] [] ["--output"] _ 1
      (LoopHead.start _) rfl rfl (by simp) (Or.inr (Or.inr ⟨rfl, rfl, rfl⟩))
    exact ⟨s1, h1, h2, h3⟩

/-! ## `--output` after the positional arguments -/

theorem setting_ne_generating (x w : String) :
    ("Setting output to: " ++ w = "Generating buffalo plugin at: [" ++ x ++ "]") ↔ False := by
  constructor
  · intro h
    have := congrArg (fun m => m.data.head?) h
    simp only [String.data_append] at this
    simp at this
  · intro h; cases h

theorem generatePluginTemplate_logs (T : UnicodeTables) (env : Env) (c n : String) (s : State)
    (w : String)
    (hmem : Event.log ("Setting output to: " ++ w)
      ∈ (generatePluginTemplate T env c n s).state.trace) :
    Event.log ("Setting output to: " ++ w) ∈ s.trace := by
  revert hmem
  unfold generatePluginTemplate executeTemplate
  rcases determineAbsolutePluginPath_cases env n (s.emit (Event.callGenerate c n)) with
    ⟨dir, hd⟩ | hd
  all_goals
    simp only [hd, Res.bind]
    repeat' split
    all_goals
      simp only [State.emit, Res.state, List.mem_append, List.mem_cons, List.mem_singleton,
        List.not_mem_nil, or_false, Event.log.injEq, reduceCtorEq, false_or, or_false,
        setting_ne_generating, imp_self]

theorem main_lateOutput_run (T : UnicodeTables) (env : Env) (program cmd name v : String)
    (hcmd : cmd ≠ "--output") :
    main T env (lateOutputArgs program cmd name v)
      = (generatePluginTemplate T env cmd name (lateOutputState program cmd name v)).bind
          (fun _ s => mainLoop T env 5 s) := by
  unfold main lateOutputArgs
  rw [if_neg (by simp)]
  simp only [List.length_cons, List.length_nil, Nat.reduceAdd]
  rw [mainLoop_generate T env 5 _ (by simp [initialState])]
  unfold processGeneratePluginTemplate
  rw [@outputFlagLoop_stop _ [program, "plugin-template-generate"] [cmd, name, "--output", v] _
    rfl rfl (by simpa using hcmd)]
  simp only [Res.bind]
  rw [@getNextArgument_at _ [program, "plugin-template-generate"] [name, "--output", v] cmd _
    rfl rfl]
  simp only []
  rw [@getNextArgument_at _ [program, "plugin-template-generate", cmd] ["--output", v] name _
    rfl rfl]
  rfl

/-- C17. On `program plugin-template-generate cmd name --output v`, with `cmd`
not `--output` and generation of `name` succeeding, the generator is called
once, with `cmd` and `name` and the sink selection still `gohome`; `setOutput`
is never called, since its log line is nowhere in the trace; and the run then
reports `--output` as an unrecognized token and ends, with `v` not consumed. -/
theorem main_output_after_positionals (T : UnicodeTables) (env : Env)
    (program cmd name v : String) (s4 : State) (hcmd : cmd ≠ "--output")
    (hgen : generatePluginTemplate T env cmd name (lateOutputState program cmd name v)
      = .ok () s4) :
    main T env (lateOutputArgs program cmd name v)
      = .ok () ((s4.consume.emit (Event.printUnrecognized "--output"
          (lateOutputArgs program cmd name v))).emit Event.printHelp) ∧
    s4.generationOutput = "gohome" ∧ s4.argumentIterator = 4 ∧
    generateCalls (main T env (lateOutputArgs program cmd name v)).state.trace
      = [(cmd, name)] ∧
    (main T env (lateOutputArgs program cmd name v)).state.generationOutput = "gohome" ∧
    (main T env (lateOutputArgs program cmd name v)).state.argumentIterator = 5 ∧
    ∀ w, Event.log ("Setting output to: " ++ w)
      ∉ (main T env (lateOutputArgs program cmd name v)).state.trace := by
  have hframe := generatePluginTemplate_frame T env cmd name (lateOutputState program cmd name v)
  have hcalls := generatePluginTemplate_calls T env cmd name (lateOutputState program cmd name v)
  rw [hgen] at hframe hcalls
  obtain ⟨fa, fi, fg, _⟩ := hframe
  have fa2 : s4.args = lateOutputArgs program cmd name v := fa
  have fi2 : s4.argumentIterator = 4 := fi
  have fg2 : s4.generationOutput = "gohome" := fg
  have htok : s4.args[s4.argumentIterator]? = some "--output" := by
    rw [fa2, fi2]; rfl
  have hmain : main T env (lateOutputArgs program cmd name v)
      = .ok () ((s4.consume.emit (Event.printUnrecognized "--output"
          (lateOutputArgs program cmd name v))).emit Event.printHelp) := by
    rw [main_lateOutput_run T env program cmd name v hcmd, hgen]
    simp only [Res.bind]
    rw [mainLoop_unrecognized T env 4 s4 "--output" htok (by decide) (by decide) (by decide)
      (by decide), fa2]
  refine ⟨hmain, fg2, fi2, ?_, ?_, ?_, ?_⟩
  · rw [hmain]
    simp only [Res.state, State.emit, State.consume, generateCalls_append]
    have : generateCalls s4.trace = [(cmd, name)] := by
      simpa [lateOutputState, generateCalls] using hcalls
    simp [this, generateCalls]
  · rw [hmain]; exact fg2
  · rw [hmain]; simp only [Res.state, State.emit, State.consume]; rw [fi2]
  · intro w hmem
    rw [hmain] at hmem
    simp only [Res.state, State.emit, State.consume, List.mem_append, List.mem_singleton,
      reduceCtorEq, or_false] at hmem
    have hlog := generatePluginTemplate_logs T env cmd name
      (lateOutputState program cmd name v) w (by rw [hgen]; exact hmem)
    simp [lateOutputState] at hlog

theorem main_output_after_positionals_witness :
    main asciiOnlyTables quietEnv (lateOutputArgs "prog" "generate" "buffalo-foo" "stdout")
      = .ok () (((generatePluginTemplate asciiOnlyTables quietEnv "generate" "buffalo-foo"
          (lateOutputState "prog" "generate" "buffalo-foo" "stdout")).state.consume.emit
          (Event.printUnrecognized "--output"
            (lateOutputArgs "prog" "generate" "buffalo-foo" "stdout"))).emit Event.printHelp) ∧
    generateCalls (main asciiOnlyTables quietEnv
      (lateOutputArgs "prog" "generate" "buffalo-foo" "stdout")).state.trace
      = [("generate", "buffalo-foo")] :=
  have h := main_output_after_positionals asciiOnlyTables quietEnv "prog" "generate"
    "buffalo-foo" "stdout"
    (generatePluginTemplate asciiOnlyTables quietEnv "generate" "buffalo-foo"
      (lateOutputState "prog" "generate" "buffalo-foo" "stdout")).state
    (by decide) (by decide)
  ⟨h.1, h.2.2.2.1⟩

/-! ## Number of generation and destruction calls -/

theorem actionCount_append (es fs : List Event) :
    actionCount (es ++ fs) = actionCount es + actionCount fs := by
  induction es with
  | nil => simp [actionCount]
  | cons e es ih => cases e <;> simp [actionCount, ih] <;> omega

theorem generatePluginTemplate_actions (T : UnicodeTables) (env : Env) (c n : String)
    (s : State) :
    actionCount (generatePluginTemplate T env c n s).state.trace = actionCount s.trace + 1 := by
  unfold generatePluginTemplate executeTemplate
  rcases determineAbsolutePluginPath_cases env n (s.emit (Event.callGenerate c n)) with
    ⟨dir, h⟩ | h
  all_goals
    simp only [h, Res.bind]
    repeat' split
    all_goals simp_all [State.emit, Res.state, actionCount_append, actionCount]

theorem destroyPluginTemplate_actions (env : Env) (n : String) (s : State) :
    actionCount (destroyPluginTemplate env n s).state.trace = actionCount s.trace + 1 := by
  unfold destroyPluginTemplate
  rcases determineAbsolutePluginPath_cases env n (s.emit (Event.callDestroy n)) with
    ⟨dir, h⟩ | h
  all_goals
    simp only [h, Res.bind]
    repeat' split
    all_goals simp_all [State.emit, Res.state, actionCount_append, actionCount]

theorem getNextArgument_preserves (P : State → Prop) (hpos : ∀ s, P s → P s.consume)
    (d : String) (s : State) (h : P s) : P (getNextArgument d s).state := by
  rcases getNextArgument_cases d s with ⟨_, hok⟩ | ⟨_, hbad⟩
  · rw [hok]; exact hpos s h
  · rw [hbad]; exact h

theorem setOutput_preserves (P : State → Prop)
    (hlog : ∀ s v m, P s → P { s with generationOutput := v, trace := s.trace ++ [Event.log m] })
    (v : String) (s : State) (h : P s) : P (setOutput v s).state := by
  rcases setOutput_cases v s with hok | hbad
  · rw [hok]; exact hlog s v _ h
  · rw [hbad]; exact hlog s s.generationOutput _ h

theorem outputFlagLoop_preserves (P : State → Prop) (hpos : ∀ s, P s → P s.consume)
    (hlog : ∀ s v m, P s → P { s with generationOutput := v, trace := s.trace ++ [Event.log m] })
    (fuel : Nat) (s : State) (h : P s) : P (outputFlagLoop fuel s).state := by
  induction fuel generalizing s with
  | zero => exact h
  | succ fuel ih =>
    unfold outputFlagLoop
    split
    · refine Res.bind_state (P := P) _ _ ?_ ?_
      · rw [seeNextArgument_state]; exact h
      · intro v s1 h1
        have hs1 : P s1 := by rw [seeNextArgument_ok h1]; exact h
        split
        · refine Res.bind_state (P := P) _ _ (getNextArgument_preserves P hpos _ _ hs1) ?_
          intro _ s2 h2
          have hs2 : P s2 := by
            have := getNextArgument_preserves P hpos "--output argument consume" s1 hs1
            rw [h2] at this; exact this
          refine Res.bind_state (P := P) _ _ (getNextArgument_preserves P hpos _ _ hs2) ?_
          intro w s3 h3
          have hs3 : P s3 := by
            have := getNextArgument_preserves P hpos "Output value: one of (gohome|stdout)" s2 hs2
            rw [h3] at this; exact this
          refine Res.bind_state (P := P) _ _ (setOutput_preserves P hlog _ _ hs3) ?_
          intro _ s4 h4
          have hs4 : P s4 := by
            have := setOutput_preserves P hlog w s3 hs3
            rw [h4] at this; exact this
          exact ih s4 hs4
        · exact hs1
    · exact h

theorem ActInv.next {m : Nat} {s : State} (h : ActInv m s) : ActInv (m + 1) s.consume := by
  unfold ActInv at *
  simp only [State.consume]
  omega

theorem ActInv.weaken {m k : Nat} {s : State} (h : ActInv m s) (hk : k ≤ m) : ActInv k s := by
  unfold ActInv at *
  omega

theorem ActInv.log {m : Nat} {s : State} (v msg : String) (h : ActInv m s) :
    ActInv m { s with generationOutput := v, trace := s.trace ++ [Event.log msg] } := by
  unfold ActInv at *
  simp only [actionCount_append, actionCount]
  omega

theorem processGeneratePluginTemplate_act (T : UnicodeTables) (env : Env) (s : State)
    (h : ActInv 2 s) : ActInv 1 (processGeneratePluginTemplate T env s).state := by
  unfold processGeneratePluginTemplate
  have hloop := outputFlagLoop_preserves (ActInv 2) (fun s h => h.next.weaken (by omega))
    (fun s v m h => h.log v m) (s.args.length - s.argumentIterator + 1) s h
  refine Res.bind_state (P := ActInv 1) _ _ (hloop.weaken (by omega)) ?_
  intro _ s1 h1
  rw [h1] at hloop
  have hs1 : ActInv 2 s1 := hloop
  rcases getNextArgument_cases "<buffalo_command> For which buffalo command is this plugin for."
    s1 with ⟨_, hok⟩ | ⟨_, hbad⟩
  · rw [hok]
    simp only [Res.bind]
    rcases getNextArgument_cases "<plugin_name> Generated plugin name." s1.consume with
      ⟨_, hok2⟩ | ⟨_, hbad2⟩
    · rw [hok2]
      simp only []
      have hf := generatePluginTemplate_frame T env
        (s1.args.get ⟨s1.argumentIterator, by assumption⟩)
        (s1.consume.args.get ⟨s1.consume.argumentIterator, by assumption⟩) s1.consume.consume
      have hc := generatePluginTemplate_actions T env
        (s1.args.get ⟨s1.argumentIterator, by assumption⟩)
        (s1.consume.args.get ⟨s1.consume.argumentIterator, by assumption⟩) s1.consume.consume
      have h3 : ActInv 4 s1.consume.consume := hs1.next.next
      unfold ActInv at h3 ⊢
      rw [hc, hf.2.1]
      omega
    · rw [hbad2]
      exact hs1.next.weaken (by omega)
  · rw [hbad]
    exact hs1.weaken (by omega)

theorem processDestroyPluginTemplate_act (env : Env) (s : State) (h : ActInv 2 s) :
    ActInv 1 (processDestroyPluginTemplate env s).state := by
  unfold processDestroyPluginTemplate
  rcases getNextArgument_cases "<plugin_name> Generated plugin name." s with
    ⟨_, hok⟩ | ⟨_, hbad⟩
  · rw [hok]
    simp only [Res.bind]
    have hf := destroyPluginTemplate_frame env
      (s.args.get ⟨s.argumentIterator, by assumption⟩) s.consume
    have hc := destroyPluginTemplate_actions env
      (s.args.get ⟨s.argumentIterator, by assumption⟩) s.consume
    have h3 : ActInv 3 s.consume := h.next
    unfold ActInv at h3 ⊢
    rw [hc, hf.2.1]
    omega
  · rw [hbad]
    exact h.weaken (by omega)

theorem mainLoop_act (T : UnicodeTables) (env : Env) (fuel : Nat) (s : State)
    (h : ActInv 1 s) : ActInv 1 (mainLoop T env fuel s).state := by
  induction fuel generalizing s with
  | zero => exact h
  | succ fuel ih =>
    unfold mainLoop
    split
    · rcases getNextArgument_cases "Flag or buffalo root command" s with ⟨_, hok⟩ | ⟨_, hbad⟩
      · rw [hok]
        simp only [Res.bind]
        have hs1 : ActInv 2 s.consume := h.next
        have hemit : ∀ e, actionCount [e] = 0 → ActInv 1 (s.consume.emit e) := by
          intro e he
          unfold ActInv at hs1 ⊢
          simp only [State.emit, actionCount_append, he]
          omega
        split
        · exact ih _ (hemit _ rfl)
        · split
          · exact hemit _ rfl
          · split
            · have hp := processGeneratePluginTemplate_act T env s.consume hs1
              cases hr : processGeneratePluginTemplate T env s.consume with
              | ok u s2 => rw [hr] at hp; exact ih s2 hp
              | fatal e s2 => rw [hr] at hp; exact hp
              | outOfFuel s2 => rw [hr] at hp; exact hp
            · split
              · have hp := processDestroyPluginTemplate_act env s.consume hs1
                cases hr : processDestroyPluginTemplate env s.consume with
                | ok u s2 => rw [hr] at hp; exact ih s2 hp
                | fatal e s2 => rw [hr] at hp; exact hp
                | outOfFuel s2 => rw [hr] at hp; exact hp
              · have h1 := hemit (Event.printUnrecognized
                  (s.args.get ⟨s.argumentIterator, by assumption⟩) s.consume.args) rfl
                unfold ActInv at h1 ⊢
                simp only [State.emit, actionCount_append, actionCount, Res.state] at h1 ⊢
                omega
      · rw [hbad]; exact h
    · exact h

theorem processGeneratePluginTemplate_at_most_one (T : UnicodeTables) (env : Env) (s : State) :
    actionCount (processGeneratePluginTemplate T env s).state.trace
      ≤ actionCount s.trace + 1 := by
  have hP : ∀ s1 : State, actionCount s1.trace ≤ actionCount s.trace →
      actionCount s1.consume.trace ≤ actionCount s.trace := fun s1 h => h
  have hL : ∀ (s1 : State) (v m : String), actionCount s1.trace ≤ actionCount s.trace →
      actionCount ({ s1 with generationOutput := v, trace := s1.trace ++ [Event.log m] } :
        State).trace ≤ actionCount s.trace := by
    intro s1 v m h
    simp only [actionCount_append, actionCount]
    omega
  unfold processGeneratePluginTemplate
  have hloop := outputFlagLoop_preserves (fun s1 => actionCount s1.trace ≤ actionCount s.trace)
    hP hL (s.args.length - s.argumentIterator + 1) s (Nat.le_refl _)
  refine Res.bind_state (P := fun s1 => actionCount s1.trace ≤ actionCount s.trace + 1) _ _
    (Nat.le_succ_of_le hloop) ?_
  intro _ s1 h1
  rw [h1] at hloop
  have hs1 : actionCount s1.trace ≤ actionCount s.trace := hloop
  have hget1 := getNextArgument_preserves
    (fun s2 => actionCount s2.trace ≤ actionCount s.trace) hP
    "<buffalo_command> For which buffalo command is this plugin for." s1 hs1
  refine Res.bind_state (P := fun s1 => actionCount s1.trace ≤ actionCount s.trace + 1) _ _
    (Nat.le_succ_of_le hget1) ?_
  intro c s2 h2
  rw [h2] at hget1
  have hget2 := getNextArgument_preserves
    (fun s3 => actionCount s3.trace ≤ actionCount s.trace) hP
    "<plugin_name> Generated plugin name." s2 hget1
  refine Res.bind_state (P := fun s1 => actionCount s1.trace ≤ actionCount s.trace + 1) _ _
    (Nat.le_succ_of_le hget2) ?_
  intro n s3 h3
  rw [h3] at hget2
  show actionCount (generatePluginTemplate T env c n s3).state.trace ≤ actionCount s.trace + 1
  rw [generatePluginTemplate_actions]
  exact Nat.succ_le_succ hget2

theorem processDestroyPluginTemplate_at_most_one (env : Env) (s : State) :
    actionCount (processDestroyPluginTemplate env s).state.trace ≤ actionCount s.trace + 1 := by
  unfold processDestroyPluginTemplate
  rcases getNextArgument_cases "<plugin_name> Generated plugin name." s with
    ⟨_, hok⟩ | ⟨_, hbad⟩
  · rw [hok]
    simp only [Res.bind]
    rw [destroyPluginTemplate_actions]
    exact Nat.le_refl _
  · rw [hbad]
    exact Nat.le_succ _

/-- C13, as the code has it. Handling one `plugin-template-generate` or
`plugin-template-destroy` command makes at most one generation or destruction
call, and the loop of `main` then goes on with the tokens that follow, where a
further command makes a further call; over a whole run the number of such
calls is at most half the number of arguments after the program name. -/
theorem main_actions_bound (T : UnicodeTables) (env : Env) (args : List String) :
    2 * actionCount (main T env args).state.trace ≤ args.length - 1 ∧
    (∀ s, actionCount (processGeneratePluginTemplate T env s).state.trace
      ≤ actionCount s.trace + 1) ∧
    (∀ s, actionCount (processDestroyPluginTemplate env s).state.trace
      ≤ actionCount s.trace + 1) ∧
    (∀ (fuel : Nat) (s : State),
      s.args[s.argumentIterator]? = some "plugin-template-generate" →
      mainLoop T env (fuel + 1) s
        = (processGeneratePluginTemplate T env s.consume).bind
            (fun _ s1 => mainLoop T env fuel s1)) ∧
    (∀ (fuel : Nat) (s : State),
      s.args[s.argumentIterator]? = some "plugin-template-destroy" →
      mainLoop T env (fuel + 1) s
        = (processDestroyPluginTemplate env s.consume).bind
            (fun _ s1 => mainLoop T env fuel s1)) := by
  refine ⟨?_, processGeneratePluginTemplate_at_most_one T env,
    processDestroyPluginTemplate_at_most_one env, mainLoop_generate T env,
    mainLoop_destroy T env⟩
  by_cases hlen : args.length ≤ 1
  · simp [main, hlen, Res.state, actionCount]
  · have hact : ActInv 1 (main T env args).state := by
      simp only [main, hlen, if_false]
      apply mainLoop_act
      unfold ActInv
      simp [initialState, actionCount]
    have hinv : CursorInv args (main T env args).state := by
      simp only [main, hlen, if_false]
      exact mainLoop_inv T env _ (initialState_inv args (by omega))
    obtain ⟨_, _, hlast, _, hall⟩ := hinv
    have hpos : (main T env args).state.argumentIterator ≤ args.length := by
      have hmem : (main T env args).state.argumentIterator
          ∈ (main T env args).state.cursorLog := List.mem_of_getLast?_eq_some hlast
      exact (hall _ hmem).2
    unfold ActInv at hact
    omega

/-- C13, as the claim has it, fails: the run on two `plugin-template-generate`
commands calls the generator twice. -/
theorem main_two_generations :
    generateCalls (main asciiOnlyTables quietEnv twoGenerateArgs).state.trace
      = [("generate", "buffalo-a"), ("generate", "buffalo-b")] ∧
    actionCount (main asciiOnlyTables quietEnv twoGenerateArgs).state.trace = 2 := by
  decide

/-! ## Runs on argument lists with a common beginning -/

theorem Agree.getElem? {p : Nat} {a b : List String} (h : Agree p a b) {i : Nat}
    (hi : i < p) : a[i]? = b[i]? := by
  calc a[i]? = (a.take p)[i]? := (List.getElem?_take_of_lt hi).symm
    _ = (b.take p)[i]? := by rw [h.2.2]
    _ = b[i]? := List.getElem?_take_of_lt hi

theorem seeNextArgument_of_getElem? {s : State} {v : String} (d : String)
    (h : s.args[s.argumentIterator]? = some v) : seeNextArgument d s = .ok v s := by
  have hlt : s.argumentIterator < s.args.length := by
    by_contra hlt
    rw [List.getElem?_eq_none (Nat.le_of_not_lt hlt)] at h
    cases h
  rw [List.getElem?_eq_getElem hlt] at h
  cases h
  simp only [seeNextArgument, getArgument_of_lt _ _ _ hlt]
  rfl

theorem getNextArgument_sim {p : Nat} {b : List String} {d : String} {s s1 : State}
    {v : String} (h : getNextArgument d s = .ok v s1) (hp : s.argumentIterator < p)
    (hag : Agree p s.args b) :
    getNextArgument d (s.withArgs b) = .ok v (s1.withArgs b) := by
  obtain ⟨rfl, _, hv⟩ := getNextArgument_ok h
  have hv2 : (s.withArgs b).args[(s.withArgs b).argumentIterator]? = some v := by
    show b[s.argumentIterator]? = some v
    rw [← hag.getElem? hp]; exact hv
  exact (getNextArgument_of_getElem? d hv2).2

theorem seeNextArgument_sim {p : Nat} {b : List String} {d : String} {s s1 : State}
    {v : String} (h : seeNextArgument d s = .ok v s1) (hp : s.argumentIterator < p)
    (hag : Agree p s.args b) :
    seeNextArgument d (s.withArgs b) = .ok v (s1.withArgs b) := by
  obtain ⟨rfl, _, hv⟩ := seeNextArgument_ok_value h
  have hv2 : (s1.withArgs b).args[(s1.withArgs b).argumentIterator]? = some v := by
    show b[s1.argumentIterator]? = some v
    rw [← hag.getElem? hp]; exact hv
  exact seeNextArgument_of_getElem? d hv2

theorem setOutput_sim {b : List String} {v : String} {s s1 : State}
    (h : setOutput v s = .ok () s1) : setOutput v (s.withArgs b) = .ok () (s1.withArgs b) := by
  by_cases hv : v = "gohome" ∨ v = "stdout"
  · rw [setOutput_accept v s hv] at h
    cases h
    rw [setOutput_accept v _ hv]
    rfl
  · rw [setOutput_reject v s hv] at h
    cases h

theorem determineAbsolutePluginPath_sim (env : Env) (n : String) (s : State)
    (b : List String) :
    (∀ dir, determineAbsolutePluginPath env n s = .ok dir s →
      determineAbsolutePluginPath env n (s.withArgs b) = .ok dir (s.withArgs b)) ∧
    (determineAbsolutePluginPath env n s = .fatal (Fatal.absFailure n) s →
      determineAbsolutePluginPath env n (s.withArgs b)
        = .fatal (Fatal.absFailure n) (s.withArgs b)) := by
  unfold determineAbsolutePluginPath
  simp only [State.withArgs]
  cases env.abs s.trace (env.gohome ++ "/" ++ "src" ++ "/" ++ n) with
  | none => exact ⟨fun dir h => (by cases h), fun _ => rfl⟩
  | some d => exact ⟨fun dir h => (by cases h; rfl), fun h => (by cases h)⟩

theorem generatePluginTemplate_sim (T : UnicodeTables) (env : Env) (c n : String)
    (s s4 : State) (b : List String) (h : generatePluginTemplate T env c n s = .ok () s4) :
    generatePluginTemplate T env c n (s.withArgs b) = .ok () (s4.withArgs b) := by
  unfold generatePluginTemplate executeTemplate at h ⊢
  have hemit : (s.withArgs b).emit (Event.callGenerate c n)
      = (s.emit (Event.callGenerate c n)).withArgs b := rfl
  rcases determineAbsolutePluginPath_cases env n (s.emit (Event.callGenerate c n)) with
    ⟨dir, hd⟩ | hd
  · have hd2 := (determineAbsolutePluginPath_sim env n _ b).1 dir hd
    simp only [hemit, hd, hd2, Res.bind] at h ⊢
    repeat' split at h
    all_goals try cases h
    all_goals simp_all [State.withArgs, State.emit]
  · have hd2 := (determineAbsolutePluginPath_sim env n _ b).2 hd
    simp only [hemit, hd, hd2, Res.bind] at h ⊢
    repeat' split at h
    all_goals try cases h
    all_goals simp_all [State.withArgs, State.emit]

theorem destroyPluginTemplate_sim (env : Env) (n : String) (s s4 : State) (b : List String)
    (h : destroyPluginTemplate env n s = .ok () s4) :
    destroyPluginTemplate env n (s.withArgs b) = .ok () (s4.withArgs b) := by
  unfold destroyPluginTemplate at h ⊢
  have hemit : (s.withArgs b).emit (Event.callDestroy n)
      = (s.emit (Event.callDestroy n)).withArgs b := rfl
  rcases determineAbsolutePluginPath_cases env n (s.emit (Event.callDestroy n)) with
    ⟨dir, hd⟩ | hd
  · have hd2 := (determineAbsolutePluginPath_sim env n _ b).1 dir hd
    simp only [hemit, hd, hd2, Res.bind] at h ⊢
    repeat' split at h
    all_goals try cases h
    all_goals simp_all [State.withArgs, State.emit]
  · simp only [hd, Res.bind] at h
    cases h

theorem outputFlagLoop_ok_advances {fuel : Nat} {s s1 : State}
    (h : outputFlagLoop fuel s = .ok () s1) : Advances s s1 := by
  have := outputFlagLoop_advances fuel s
  rw [h] at this
  exact this

theorem outputFlagLoop_sim {p : Nat} {b : List String} (fuel : Nat) :
    ∀ {s s1 : State}, outputFlagLoop fuel s = .ok () s1 → s1.argumentIterator < p →
      Agree p s.args b → outputFlagLoop fuel (s.withArgs b) = .ok () (s1.withArgs b) := by
  induction fuel with
  | zero => intro s s1 h; cases h
  | succ fuel ih =>
    intro s s1 h hp hag
    have hadv := outputFlagLoop_ok_advances h
    have hsp : s.argumentIterator < p := Nat.lt_of_le_of_lt hadv.2 hp
    have hlt : s.argumentIterator < s.args.length := Nat.lt_of_lt_of_le hsp hag.1
    have hlt2 : s.argumentIterator < b.length := Nat.lt_of_lt_of_le hsp hag.2.1
    have hnext : hasNextArgument s.args s.argumentIterator = true :=
      (hasNextArgument_true_iff _ _).mpr hlt
    have hnext2 : hasNextArgument (s.withArgs b).args (s.withArgs b).argumentIterator = true :=
      (hasNextArgument_true_iff _ _).mpr hlt2
    rw [outputFlagLoop, if_pos hnext] at h
    rw [outputFlagLoop, if_pos hnext2]
    obtain ⟨tok, s0, hsee, hrest⟩ := Res.bind_eq_ok h
    obtain ⟨rfl, _, _⟩ := seeNextArgument_ok_value hsee
    rw [seeNextArgument_sim hsee hsp hag]
    simp only [Res.bind]
    by_cases hflag : tok = "--output"
    · rw [if_pos hflag] at hrest ⊢
      obtain ⟨_, s2, hget1, hrest2⟩ := Res.bind_eq_ok hrest
      obtain ⟨w, s3, hget2, hrest3⟩ := Res.bind_eq_ok hrest2
      obtain ⟨_, s4, hset, hloop⟩ := Res.bind_eq_ok hrest3
      obtain ⟨rfl, _, _⟩ := getNextArgument_ok hget1
      obtain ⟨rfl, _, _⟩ := getNextArgument_ok hget2
      have hadv4 := outputFlagLoop_ok_advances hloop
      have hs4 : s4.argumentIterator = s0.argumentIterator + 2 ∧ s4.args = s0.args := by
        rcases setOutput_cases w s0.consume.consume with hok | hbad
        · rw [hok] at hset; cases hset; exact ⟨rfl, rfl⟩
        · rw [hbad] at hset; cases hset
      have hp1 : s0.consume.argumentIterator < p := by
        have := hadv4.2
        simp only [State.consume]
        omega
      rw [getNextArgument_sim hget1 hsp hag]
      simp only []
      rw [getNextArgument_sim hget2 hp1 hag]
      simp only []
      rw [setOutput_sim hset]
      simp only []
      exact ih hloop hp (by rw [hs4.2]; exact hag)
    · rw [if_neg hflag] at hrest ⊢
      cases hrest
      rfl

theorem processGeneratePluginTemplate_sim (T : UnicodeTables) (env : Env) {p : Nat}
    {b : List String} {s s4 : State} (h : processGeneratePluginTemplate T env s = .ok () s4)
    (hp : s4.argumentIterator ≤ p) (hag : Agree p s.args b) :
    processGeneratePluginTemplate T env (s.withArgs b) = .ok () (s4.withArgs b) := by
  unfold processGeneratePluginTemplate at h
  obtain ⟨_, s1, hloop, hrest⟩ := Res.bind_eq_ok h
  obtain ⟨c, s2, hget1, hrest2⟩ := Res.bind_eq_ok hrest
  obtain ⟨n, s3, hget2, hgen⟩ := Res.bind_eq_ok hrest2
  obtain ⟨rfl, _, _⟩ := getNextArgument_ok hget1
  obtain ⟨rfl, _, _⟩ := getNextArgument_ok hget2
  have hadv1 := outputFlagLoop_ok_advances hloop
  have hfr := generatePluginTemplate_frame T env c n s1.consume.consume
  rw [hgen] at hfr
  have hpos4 : s4.argumentIterator = s1.argumentIterator + 2 := hfr.2.1
  have hp1 : s1.argumentIterator < p := by omega
  have hp2 : s1.consume.argumentIterator < p := by simp only [State.consume]; omega
  have hag1 : Agree p s1.args b := by rw [hadv1.1]; exact hag
  have hsim := outputFlagLoop_sim _ hloop hp1 hag
  have hterm : (outputFlagLoop ((s.withArgs b).args.length - (s.withArgs b).argumentIterator + 1)
      (s.withArgs b)).terminated = true := outputFlagLoop_terminated _ _ (by omega)
  have hfuel := outputFlagLoop_fuel_irrelevant _ _ (s.withArgs b) hterm
    (by rw [hsim]; rfl)
  unfold processGeneratePluginTemplate
  rw [hfuel, hsim]
  simp only [Res.bind]
  rw [getNextArgument_sim hget1 hp1 hag1]
  simp only []
  rw [getNextArgument_sim hget2 hp2 hag1]
  simp only []
  exact generatePluginTemplate_sim T env c n _ s4 b hgen

theorem processDestroyPluginTemplate_sim (env : Env) {p : Nat} {b : List String}
    {s s4 : State} (h : processDestroyPluginTemplate env s = .ok () s4)
    (hp : s4.argumentIterator ≤ p) (hag : Agree p s.args b) :
    processDestroyPluginTemplate env (s.withArgs b) = .ok () (s4.withArgs b) := by
  unfold processDestroyPluginTemplate at h
  obtain ⟨n, s1, hget, hdes⟩ := Res.bind_eq_ok h
  obtain ⟨rfl, _, _⟩ := getNextArgument_ok hget
  have hfr := destroyPluginTemplate_frame env n s.consume
  rw [hdes] at hfr
  have hpos4 : s4.argumentIterator = s.argumentIterator + 1 := hfr.2.1
  have hp1 : s.argumentIterator < p := by omega
  unfold processDestroyPluginTemplate
  rw [getNextArgument_sim hget hp1 hag]
  simp only [Res.bind]
  exact destroyPluginTemplate_sim env n _ s4 b hdes

theorem loopHead_sim (T : UnicodeTables) (env : Env) {p : Nat} {b : List String} {k : Nat}
    {s s2 : State} (h : LoopHead T env k s s2) :
    s2.argumentIterator ≤ p → Agree p s.args b →
      LoopHead T env k (s.withArgs b) (s2.withArgs b) := by
  induction h with
  | start s => intro _ _; exact LoopHead.start _
  | @available k s s1 s2 hget hrest ih =>
    intro hp hag
    obtain ⟨rfl, _, _⟩ := getNextArgument_ok hget
    have hadv := loopHead_advances T env hrest
    have hp1 : s.argumentIterator < p := by
      have := hadv.2
      simp only [State.emit, State.consume] at this
      omega
    exact LoopHead.available (getNextArgument_sim hget hp1 hag) (ih hp hag)
  | @generate k s s1 s2 s3 hget hproc hrest ih =>
    intro hp hag
    obtain ⟨rfl, _, _⟩ := getNextArgument_ok hget
    have hadv := loopHead_advances T env hrest
    have hadv2 := processGeneratePluginTemplate_advances T env s.consume
    rw [hproc] at hadv2
    have hp2 : s2.argumentIterator ≤ p := by have := hadv.2; omega
    have hp1 : s.argumentIterator < p := by
      have := hadv2.2
      simp only [State.consume, Res.state] at this
      omega
    exact LoopHead.generate (getNextArgument_sim hget hp1 hag)
      (processGeneratePluginTemplate_sim T env hproc hp2 hag)
      (ih hp (by
        have ha2 : s2.args = s.args := hadv2.1
        rw [ha2]; exact hag))
  | @destroy k s s1 s2 s3 hget hproc hrest ih =>
    intro hp hag
    obtain ⟨rfl, _, _⟩ := getNextArgument_ok hget
    have hadv := loopHead_advances T env hrest
    have hadv2 := processDestroyPluginTemplate_advances env s.consume
    rw [hproc] at hadv2
    have hp2 : s2.argumentIterator ≤ p := by have := hadv.2; omega
    have hp1 : s.argumentIterator < p := by
      have := hadv2.2
      simp only [State.consume, Res.state] at this
      omega
    exact LoopHead.destroy (getNextArgument_sim hget hp1 hag)
      (processDestroyPluginTemplate_sim env hproc hp2 hag)
      (ih hp (by
        have ha2 : s2.args = s.args := hadv2.1
        rw [ha2]; exact hag))

theorem agree_common_beginning (pre rest rest2 : List String) (x : String) :
    Agree (pre.length + 1) (pre ++ x :: rest) (pre ++ x :: rest2) := by
  refine ⟨by simp, by simp, ?_⟩
  have h1 : pre ++ x :: rest = (pre ++ [x]) ++ rest := by simp
  have h2 : pre ++ x :: rest2 = (pre ++ [x]) ++ rest2 := by simp
  have hl : pre.length + 1 = (pre ++ [x]).length := by simp
  rw [h1, h2, hl, List.take_left, List.take_left]

theorem main_help_aux (T : UnicodeTables) (env : Env) (args : List String) (k : Nat)
    (s : State) (hhead : LoopHead T env k (initialState args) s)
    (htok : s.args[s.argumentIterator]? = some "--help") :
    main T env args = .ok () (s.consume.emit Event.printHelp) := by
  have hlt : s.argumentIterator < s.args.length := by
    by_contra hlt
    rw [List.getElem?_eq_none (Nat.le_of_not_lt hlt)] at htok
    cases htok
  obtain ⟨fuel, hmain⟩ := main_of_loopHead T env args hhead hlt
  rw [hmain, mainLoop_help T env fuel s htok]

/-- C12. When the scan of `main` comes to `--help`, the run ends normally at
once: that token is consumed and no other, and the only event added is the
help text.  This holds for the loop entered in any state and for a whole run
whose scan reaches the token; and the run on the same arguments up to that
`--help` followed by any other tokens ends in the same state, apart from the
argument list it holds: same events, same cursor, same sink selection. -/
theorem main_help (T : UnicodeTables) (env : Env) :
    (∀ (fuel : Nat) (s : State), s.args[s.argumentIterator]? = some "--help" →
      mainLoop T env (fuel + 1) s = .ok () (s.consume.emit Event.printHelp)) ∧
    (∀ (args : List String) (k : Nat) (s : State),
      LoopHead T env k (initialState args) s → s.args[s.argumentIterator]? = some "--help" →
      main T env args = .ok () (s.consume.emit Event.printHelp)) ∧
    (∀ (pre rest rest2 : List String) (k : Nat) (s : State),
      LoopHead T env k (initialState (pre ++ "--help" :: rest)) s →
      s.argumentIterator = pre.length →
      main T env (pre ++ "--help" :: rest) = .ok () (s.consume.emit Event.printHelp) ∧
      main T env (pre ++ "--help" :: rest2)
        = .ok () ((s.consume.emit Event.printHelp).withArgs (pre ++ "--help" :: rest2))) ∧
    (∀ (program : String) (rest : List String),
      main T env (program :: "--help" :: rest)
        = .ok ()
            { args := program :: "--help" :: rest
              argumentIterator := 2
              generationOutput := "gohome"
              trace := [Event.printHelp]
              cursorLog := [1, 2] }) := by
  refine ⟨fun fuel s => mainLoop_help T env fuel s, main_help_aux T env, ?_, ?_⟩
  · intro pre rest rest2 k s hhead hpos
    have hargs : s.args = pre ++ "--help" :: rest := (loopHead_advances T env hhead).1
    have htok : s.args[s.argumentIterator]? = some "--help" := by
      rw [hargs, hpos]; exact getElem?_at _ _ _
    refine ⟨main_help_aux T env _ k s hhead htok, ?_⟩
    have hsim := loopHead_sim T env hhead (Nat.le_of_eq hpos
      |>.trans (Nat.le_succ _)) (agree_common_beginning pre rest rest2 "--help")
    have htok2 : (s.withArgs (pre ++ "--help" :: rest2)).args[
        (s.withArgs (pre ++ "--help" :: rest2)).argumentIterator]? = some "--help" := by
      show (pre ++ "--help" :: rest2)[s.argumentIterator]? = some "--help"
      rw [hpos]; exact getElem?_at _ _ _
    exact main_help_aux T env _ k _ hsim htok2
  · intro program rest
    exact main_help_aux T env (program :: "--help" :: rest) 0 _ (LoopHead.start _)
      (by simp [initialState])

end BuffaloPluginTemplate
